import Mathlib

/-!
Shallow embedding of the team-role-assign pipeline (TypeScript source under
`src/`), covering the data model (`src/types/index.ts`), the Hungarian-based
assigner (`src/lib/assigner.ts`), the scoring oracle client
(`src/lib/scorer.ts`), the justification oracle client
(`src/lib/justifier.ts`), the team/session store (`src/lib/teamManager.ts`,
the session-status part of `src/lib/sessionManager.ts`) and the
`assignTeam` API handler (`src/pages/api/assignTeam.ts`).

JavaScript `Date` values are modelled as `Nat` milliseconds passed explicitly
(`now`), numeric score values as `ℚ`, and the in-memory `Map` stores as
association lists with JS `Map` get/set/delete semantics.
-/

set_option maxHeartbeats 1000000

deriving instance DecidableEq for Except

namespace TRA

/-! ## Data model (`src/types/index.ts`) -/
structure Applicant where
  id : String
  name : String
  occupation : String
  skills : List String
  personalityTraits : List String
  submittedAt : Nat
deriving DecidableEq, Repr

structure Team where
  id : String
  name : String
  applicants : List Applicant
  createdAt : Nat
  isComplete : Bool
  sessionId : String
deriving DecidableEq, Repr

structure RoleDefinition where
  id : String
  name : String
  description : Option String := none
deriving DecidableEq, Repr

structure ScoreMatrix where
  teamId : String
  scores : List (List ℚ)
  generatedAt : Nat
deriving DecidableEq, Repr

structure Assignment where
  applicantId : String
  roleId : String
  score : ℚ
  justification : Option String := none
deriving DecidableEq, Repr

structure TeamAssignment where
  teamId : String
  assignments : List Assignment
  totalScore : ℚ
  generatedAt : Nat
  justificationsGenerated : Bool
deriving DecidableEq, Repr

inductive SessionStatus
  | pending
  | scoring
  | assigning
  | justifying
  | complete
deriving DecidableEq, Repr

inductive Phase
  | part1
  | part2
deriving DecidableEq, Repr

structure AssignmentSession where
  id : String
  teamId : String
  phase : Phase
  roles : List RoleDefinition
  scoreMatrix : Option ScoreMatrix := none
  assignment : Option TeamAssignment := none
  status : SessionStatus
  createdAt : Nat
deriving DecidableEq, Repr

/-- Status of a `Session` of `sessionManager.ts` (the administrative container,
called "Group" in the spec). -/
inductive ParentStatus
  | active
  | ended
  | archived
deriving DecidableEq, Repr

structure SessionStats where
  totalTeams : Nat
  completeTeams : Nat
  totalApplicants : Nat
  assignedTeams : Nat
  lastActivity : Nat
deriving DecidableEq, Repr

/-- The administrative `Session` of `sessionManager.ts`; only the fields the
modelled operations read or write (`status`, `stats`) are kept. -/
structure ParentSession where
  id : String
  status : ParentStatus
  stats : SessionStats
deriving DecidableEq, Repr

/-! ## Association-list model of the module-level `Map` stores

`teamManager.ts` keeps `teams : Map<string, Team>` and
`sessions : Map<string, AssignmentSession>`; `sessionManager.ts` keeps
`sessions : Map<string, Session>`. JS `Map.get` returns the entry for the
key, `Map.set` replaces the value in place (or appends), `Map.delete`
removes the entry. -/
def mfind {α : Type} : List (String × α) → String → Option α
  | [], _ => none
  | (k, v) :: rest, key => if k = key then some v else mfind rest key

def mset {α : Type} : List (String × α) → String → α → List (String × α)
  | [], key, v => [(key, v)]
  | (k, w) :: rest, key, v =>
      if k = key then (key, v) :: rest else (k, w) :: mset rest key v

def mdel {α : Type} : List (String × α) → String → List (String × α)
  | [], _ => []
  | (k, v) :: rest, key => if k = key then mdel rest key else (k, v) :: mdel rest key

/-! ## The Assigner (`src/lib/assigner.ts`)

`Assigner.assignRoles` converts the score matrix to a cost matrix, calls
`munkres` from the external `munkres-js` package, and post-processes the
returned list of `[applicantIndex, roleIndex]` pairs. The library is not
part of the repository, so its return value is an explicit parameter
`munkresResult` here; the cost-matrix transformation the source feeds it is
`costMatrix` below. -/
/-- `m[i][j]` for a nested array. In `assignRoles` every access happens after
the 10x10 dimension check with indices checked to be in `[0, 10)`, so the
`getD` defaults are never reached there. -/
def getCell (m : List (List ℚ)) (i j : Nat) : ℚ :=
  (((m[i]?).getD [])[j]?).getD 0

/-- Lines 26-28 of `assigner.ts`: `cost[i][j] = 100 - score[i][j]`. -/
def costMatrix (scores : List (List ℚ)) : List (List ℚ) :=
  scores.map (fun row => row.map (fun score => 100 - score))

/-- The `for (const [applicantIndex, roleIndex] of hungarianResult)` loop of
`assignRoles` (lines 41-65): bounds-check each index pair, look up the
applicant and role, record the pairing and accumulate `totalScore`. -/
def buildAssignments (team : Team) (roles : List RoleDefinition)
    (sm : ScoreMatrix) : List (Int × Int) → Except String (List Assignment × ℚ)
  | [] => .ok ([], 0)
  | (ai, ri) :: rest =>
    if ai < 0 ∨ 10 ≤ ai ∨ ri < 0 ∨ 10 ≤ ri then
      .error ("Invalid assignment indices: [" ++ toString ai ++ ", " ++ toString ri ++ "]")
    else
      match team.applicants[ai.toNat]? with
      | none => .error ("Applicant not found at index " ++ toString ai)
      | some applicant =>
        match roles[ri.toNat]? with
        | none => .error ("Role not found at index " ++ toString ri)
        | some role =>
          match buildAssignments team roles sm rest with
          | .error e => .error e
          | .ok (tail, total) =>
            let score := getCell sm.scores ai.toNat ri.toNat
            .ok ({ applicantId := applicant.id, roleId := role.id,
                   score := score, justification := none } :: tail,
                 score + total)

/-- `Assigner.assignRoles` (lines 6-95 of `assigner.ts`). `munkresResult` is
the value returned by the external `munkres` call on `costMatrix sm.scores`
(a `null` return fails the same length check as a wrong-length list); `now`
is the clock value read by `new Date()` for `generatedAt`. The duplicate
checks via `new Set(...)` are modelled with `List.dedup`. -/
def assignRoles (munkresResult : List (Int × Int)) (team : Team)
    (roles : List RoleDefinition) (sm : ScoreMatrix) (now : Nat) :
    Except String TeamAssignment :=
  if team.applicants.length ≠ 10 then
    .error "Team must have exactly 10 applicants"
  else if roles.length ≠ 10 then
    .error "Must have exactly 10 roles"
  else if ¬(sm.scores.length = 10 ∧ ∀ row ∈ sm.scores, row.length = 10) then
    .error "Score matrix must be 10x10"
  else if munkresResult.length ≠ 10 then
    .error "Hungarian algorithm failed to find valid assignment"
  else
    match buildAssignments team roles sm munkresResult with
    | .error e => .error e
    | .ok (assignments, totalScore) =>
      if ((assignments.map (fun a => a.applicantId)).dedup).length ≠ 10 then
        .error "Not all applicants were assigned uniquely"
      else if ((assignments.map (fun a => a.roleId)).dedup).length ≠ 10 then
        .error "Not all roles were assigned uniquely"
      else
        .ok { teamId := team.id, assignments := assignments,
              totalScore := totalScore, generatedAt := now,
              justificationsGenerated := false }

/-! ## Spec model of the external matching library -/
/-- Total cost of the perfect matching `i ↦ σ i` on a 10x10 cost matrix. -/
def matchingCost (cost : List (List ℚ)) (σ : Equiv.Perm (Fin 10)) : ℚ :=
  ∑ i : Fin 10, getCell cost (i : Nat) ((σ i : Fin 10) : Nat)

/-- Total score of the bijection `i ↦ τ i` (applicant index to role index)
on a 10x10 score matrix. -/
def matchingScore (scores : List (List ℚ)) (τ : Equiv.Perm (Fin 10)) : ℚ :=
  ∑ i : Fin 10, getCell scores (i : Nat) ((τ i : Fin 10) : Nat)

/-- The `[rowIndex, columnIndex]` pair list that a matching of permutation
type `σ` takes in `munkres-js`: one pair per row, rows in order. -/
def pairsOfPerm (σ : Equiv.Perm (Fin 10)) : List (Int × Int) :=
  (List.finRange 10).map
    (fun (i : Fin 10) => (((i : Nat) : Int), (((σ i : Fin 10) : Nat) : Int)))

/-- Modelled from the spec: the external `munkres-js` library (absent from
the repository; `assigner.ts` imports it as `munkres`) solves the
cost-minimization assignment problem — its return value enumerates, row by
row, a perfect matching whose total cost is minimal over all perfect
matchings ("any valid primal-dual / augmenting-path assignment algorithm
solving the cost-minimization assignment problem"). -/
def IsMinCostMatching (cost : List (List ℚ)) (result : List (Int × Int)) : Prop :=
  ∃ σ : Equiv.Perm (Fin 10), result = pairsOfPerm σ ∧
    ∀ τ : Equiv.Perm (Fin 10), matchingCost cost σ ≤ matchingCost cost τ

/-! ## Concrete sample data (used by witnesses and counterexamples) -/
def mkApplicant (i : Nat) : Applicant :=
  { id := "a" ++ toString i, name := "Name" ++ toString i, occupation := "dev",
    skills := ["coding"], personalityTraits := ["calm"], submittedAt := 0 }

def sampleTeam : Team :=
  { id := "team1", name := "Team 1", applicants := (List.range 10).map mkApplicant,
    createdAt := 0, isComplete := true, sessionId := "ps1" }

def sampleRoles : List RoleDefinition :=
  (List.range 10).map (fun i => { id := "r" ++ toString i, name := "Role " ++ toString i })

/-- The identity-favoring matrix of the spec: `score[i][i] = 100`, all other
cells `0`. -/
def idScores : List (List ℚ) :=
  (List.range 10).map (fun i => (List.range 10).map (fun j => if i = j then (100 : ℚ) else 0))

def sampleSM : ScoreMatrix :=
  { teamId := "team1", scores := idScores, generatedAt := 0 }

/-- The matching `[[0,0],[1,1],...,[9,9]]`. -/
def idPairs : List (Int × Int) :=
  [(0, 0), (1, 1), (2, 2), (3, 3), (4, 4), (5, 5), (6, 6), (7, 7), (8, 8), (9, 9)]

/-- Projection used to observe the `generatedAt` field of a result without
evaluating the other fields. -/
def exGeneratedAt : Except String TeamAssignment → Option Nat
  | .ok a => some a.generatedAt
  | .error _ => none

/-! ## JSON values as produced by `JSON.parse`

Both oracle clients extract the first `[...]` substring of the reply and run
`JSON.parse` on it. A parsed value is a finite number, a string, a boolean,
`null`, an array or an object; `JSON.parse` can never produce `NaN` (the
JSON grammar has no such token), but an out-of-range numeric literal such as
`1e999` evaluates to `Infinity` or `-Infinity`, so those are represented. -/
inductive JNum
  | fin (q : ℚ)
  | posInf
  | negInf
deriving DecidableEq, Repr

mutual
inductive JValue
  | num (n : JNum)
  | str (s : String)
  | bool (b : Bool)
  | null
  | arr (items : JArray)
  | obj (fields : JFields)
deriving DecidableEq, Repr

inductive JArray
  | nil
  | cons (head : JValue) (tail : JArray)
deriving DecidableEq, Repr

inductive JFields
  | nil
  | cons (name : String) (value : JValue) (tail : JFields)
deriving DecidableEq, Repr
end

def JArray.toList : JArray → List JValue
  | .nil => []
  | .cons v rest => v :: rest.toList

def JArray.length : JArray → Nat
  | .nil => 0
  | .cons _ rest => rest.length + 1

def JFields.lookupField : JFields → String → Option JValue
  | .nil, _ => none
  | .cons n v rest, name => if n = name then some v else JFields.lookupField rest name

/-- JS property read `o[name]` restricted to the object case; reading a
property of a non-object either yields `undefined` (number, string, boolean,
array) or throws (`null`) — both make the surrounding validation fail, and
are modelled as an absent field. -/
def JValue.getField : JValue → String → Option JValue
  | .obj fields, name => JFields.lookupField fields name
  | _, _ => none

/-- JS truthiness of a parsed JSON value (`0`, `""`, `false` and `null` are
falsy; `NaN` cannot occur, see above). -/
def JValue.truthy : JValue → Bool
  | .num (.fin q) => decide (q ≠ 0)
  | .num _ => true
  | .str s => decide (s ≠ "")
  | .bool b => b
  | .null => false
  | .arr _ => true
  | .obj _ => true

def JArray.ofList : List JValue → JArray
  | [] => .nil
  | v :: rest => .cons v (JArray.ofList rest)

/-! ## The scoring oracle client (`src/lib/scorer.ts`) -/
def startsWithChars : List Char → List Char → Bool
  | [], _ => true
  | _ :: _, [] => false
  | p :: ps, c :: cs => p == c && startsWithChars ps cs

def includesChars (pat : List Char) : List Char → Bool
  | [] => pat.isEmpty
  | c :: rest => startsWithChars pat (c :: rest) || includesChars pat rest

/-- JS `msg.includes(pat)`. -/
def strIncludes (msg pat : String) : Bool :=
  includesChars pat.toList msg.toList

/-- JS `msg.toLowerCase()` on the (ASCII) error messages; written over the
character list (equal to `String.toLower`, which maps `Char.toLower` over
the characters, but reducible in the kernel). -/
def lowerStr (s : String) : String :=
  String.mk (s.toList.map Char.toLower)

/-- `Scorer.isRetryableError` (lines 323-341; `Justifier.isRetryableError`,
lines 467-485 of `justifier.ts`, is identical): substring tests on the
lowercased error message. -/
def isRetryableError (msg : String) : Bool :=
  let m := lowerStr msg
  let isNetworkError := strIncludes m "network" || strIncludes m "timeout" ||
    strIncludes m "fetch"
  let isRateLimited := strIncludes m "rate limit" || strIncludes m "429" ||
    strIncludes m "too many requests"
  let isServerError := strIncludes m "500" || strIncludes m "502" ||
    strIncludes m "503" || strIncludes m "504"
  isNetworkError || isRateLimited || isServerError

/-- The message thrown on a non-ok HTTP response (line 202):
`OpenRouter API error: STATUS - TEXT`. -/
def apiErrorMsg (status : Nat) (errorText : String) : String :=
  "OpenRouter API error: " ++ toString status ++ " - " ++ errorText

def cellErrMsg (i j : Nat) : String :=
  "Invalid score at [" ++ toString i ++ "][" ++ toString j ++
    "]: must be number between 0-100"

def rowErrMsg (i : Nat) : String :=
  "Row " ++ toString i ++ " must have exactly 10 scores"

/-- The per-cell test of line 235: `typeof score !== 'number' || score < 0 ||
score > 100` under IEEE comparison. `Infinity` fails `score > 100` and
`-Infinity` fails `score < 0`, so only a finite number in `[0, 100]`
passes. -/
def checkCell (i j : Nat) : JValue → Except String ℚ
  | .num (.fin q) =>
    if q < 0 ∨ 100 < q then .error (cellErrMsg i j) else .ok q
  | _ => .error (cellErrMsg i j)

def checkRowCells (i : Nat) : Nat → List JValue → Except String (List ℚ)
  | _, [] => .ok []
  | j, c :: rest =>
    match checkCell i j c with
    | .error e => .error e
    | .ok q =>
      match checkRowCells i (j + 1) rest with
      | .error e => .error e
      | .ok qs => .ok (q :: qs)

def checkRow (i : Nat) : JValue → Except String (List ℚ)
  | .arr cells =>
    if cells.length ≠ 10 then .error (rowErrMsg i)
    else checkRowCells i 0 cells.toList
  | _ => .error (rowErrMsg i)

def checkRows : Nat → List JValue → Except String (List (List ℚ))
  | _, [] => .ok []
  | i, r :: rest =>
    match checkRow i r with
    | .error e => .error e
    | .ok row =>
      match checkRows (i + 1) rest with
      | .error e => .error e
      | .ok rows => .ok (row :: rows)

/-- Lines 225-239 of `scorer.ts`: strict validation of the parsed oracle
reply (dimension checks and the per-cell test), returning the numeric
matrix on success and the thrown message otherwise. -/
def scorerValidate : JValue → Except String (List (List ℚ))
  | .arr rows =>
    if rows.length ≠ 10 then .error "Score matrix must be 10x10"
    else checkRows 0 rows.toList
  | _ => .error "Score matrix must be 10x10"

/-- `Scorer.validateScoreMatrix` (lines 344-358), the standalone boolean
validator (`score >= 0 && score <= 100`; infinities fail `score <= 100`
resp. `score >= 0`). It is exported but not called on the scoring path. -/
def validateScoreMatrix (scores : JValue) : Bool :=
  match scores with
  | .arr rows =>
    rows.length == 10 &&
    rows.toList.all (fun row =>
      match row with
      | .arr cells =>
        cells.length == 10 &&
        cells.toList.all (fun c =>
          match c with
          | .num (.fin q) => decide (0 ≤ q) && decide (q ≤ 100)
          | _ => false)
      | _ => false)
  | _ => false

/-- A 10x10 all-finite in-range matrix, as the JSON value it parses from. -/
def encodeRow (row : List ℚ) : JValue :=
  .arr (JArray.ofList (row.map (fun q => .num (.fin q))))

def encodeMatrix (rows : List (List ℚ)) : JValue :=
  .arr (JArray.ofList (rows.map encodeRow))

def MAX_RETRIES : Nat := 3

def RETRY_DELAY : Nat := 1000

/-- One oracle interaction of `generateScoreMatrixWithRetry`: the fetch and
parse step either throws (`.error` carries the thrown message, e.g.
`apiErrorMsg status text` for a non-ok HTTP response, or a parse-failure
message) or yields the parsed JSON value, which lines 225-239 validate. -/
def scorerOneAttempt (teamId : String) (oracle : Nat → Except String JValue)
    (now k : Nat) : Except String ScoreMatrix :=
  match oracle k with
  | .error e => .error e
  | .ok v =>
    match scorerValidate v with
    | .error e => .error e
    | .ok scores => .ok { teamId := teamId, scores := scores, generatedAt := now }

/-- Trace of one `generateScoreMatrixWithRetry` call: the final result, the
number of oracle interactions made, and the backoff delays slept. -/
structure RetryOutcome where
  result : Except String ScoreMatrix
  oracleCalls : Nat
  delays : List Nat
deriving DecidableEq, Repr

/-- The recursion of `generateScoreMatrixWithRetry`, structured on
`remaining = MAX_RETRIES - retryCount`: `remaining` is zero exactly when
`retryCount < MAX_RETRIES` fails, so the `remaining`-match below is the
source condition `isRetryable && retryCount < this.MAX_RETRIES`. -/
def scorerRetryAux (team : Team) (roles : List RoleDefinition)
    (oracle : Nat → Except String JValue) (now : Nat) :
    Nat → Nat → RetryOutcome
  | remaining, retryCount =>
    if team.applicants.length ≠ 10 then
      { result := .error "Team must have exactly 10 applicants",
        oracleCalls := 0, delays := [] }
    else if roles.length ≠ 10 then
      { result := .error "Must have exactly 10 roles",
        oracleCalls := 0, delays := [] }
    else
      match scorerOneAttempt team.id oracle now retryCount with
      | .ok m => { result := .ok m, oracleCalls := 1, delays := [] }
      | .error e =>
        match remaining with
        | r + 1 =>
          if isRetryableError e then
            let rec' := scorerRetryAux team roles oracle now r (retryCount + 1)
            { result := rec'.result, oracleCalls := 1 + rec'.oracleCalls,
              delays := (RETRY_DELAY * 2 ^ retryCount) :: rec'.delays }
          else
            { result := .error ("Scoring failed after " ++ toString retryCount ++
                " retries: " ++ e), oracleCalls := 1, delays := [] }
        | 0 =>
          { result := .error ("Scoring failed after " ++ toString retryCount ++
              " retries: " ++ e), oracleCalls := 1, delays := [] }

/-- `Scorer.generateScoreMatrixWithRetry` (lines 156-265): precondition
checks, then the oracle attempt, retrying a retryable failure with delay
`RETRY_DELAY * 2 ^ retryCount` while `retryCount < MAX_RETRIES`.
`Scorer.generateScoreMatrix` calls this with `retryCount = 0`. -/
def generateScoreMatrixWithRetry (team : Team) (roles : List RoleDefinition)
    (oracle : Nat → Except String JValue) (now : Nat) (retryCount : Nat) :
    RetryOutcome :=
  scorerRetryAux team roles oracle now (MAX_RETRIES - retryCount) retryCount

/-! ## The justification oracle client (`src/lib/justifier.ts`) -/
/-- JS `String.trim` over the character list (kernel-reducible, equal to
`String.trim`). -/
def trimStr (s : String) : String :=
  String.mk (((s.toList.dropWhile Char.isWhitespace).reverse.dropWhile
    Char.isWhitespace).reverse)

/-- `justificationMap.set k v`: JS `Map.set` semantics on the raw parsed
applicantId value (which need not be a string). -/
def jmapSet : List (JValue × String) → JValue → String → List (JValue × String)
  | [], k, v => [(k, v)]
  | (k', v') :: rest, k, v =>
      if k' = k then (k, v) :: rest else (k', v') :: jmapSet rest k v

/-- `justificationMap.get k` (SameValueZero key equality). -/
def jmapGet : List (JValue × String) → JValue → Option String
  | [], _ => none
  | (k', v') :: rest, k => if k' = k then some v' else jmapGet rest k

/-- The `for (const justification of parsedJustifications)` loop of
`generateJustificationsWithRetry` (lines 244-254): both fields must be
truthy, the justification must be a string of at most 500 characters, and
its trimmed value is stored under the raw applicantId value. -/
def buildJustMap : List JValue → List (JValue × String) →
    Except String (List (JValue × String))
  | [], acc => .ok acc
  | item :: rest, acc =>
    match item.getField "applicantId", item.getField "justification" with
    | some idv, some jv =>
      if idv.truthy = false ∨ jv.truthy = false then
        .error "Invalid justification format: missing applicantId or justification"
      else
        match jv with
        | .str s =>
          if 500 < s.length then
            .error "Justification must be a string under 500 characters"
          else buildJustMap rest (jmapSet acc idv (trimStr s))
        | _ => .error "Justification must be a string under 500 characters"
    | _, _ =>
      .error "Invalid justification format: missing applicantId or justification"

/-- Lines 257-267: rebuild the assignment list, attaching each applicant's
justification from the map; a missing entry fails the whole call. -/
def applyJust (jmap : List (JValue × String)) :
    List Assignment → Except String (List Assignment)
  | [] => .ok []
  | a :: rest =>
    match jmapGet jmap (.str a.applicantId) with
    | none => .error ("No justification found for applicant " ++ a.applicantId)
    | some j =>
      match applyJust jmap rest with
      | .error e => .error e
      | .ok tail => .ok ({ a with justification := some j } :: tail)

/-- Validation of the parsed reply (lines 237-275): exactly 10 items, the
per-item loop, and the per-assignment update. -/
def justifierValidateReply (assignment : TeamAssignment) :
    JValue → Except String TeamAssignment
  | .arr items =>
    if items.length ≠ 10 then .error "Must have exactly 10 justifications"
    else
      match buildJustMap items.toList [] with
      | .error e => .error e
      | .ok jmap =>
        match applyJust jmap assignment.assignments with
        | .error e => .error e
        | .ok updated =>
          .ok { assignment with assignments := updated, justificationsGenerated := true }
  | _ => .error "Must have exactly 10 justifications"

/-- One oracle interaction of `generateJustificationsWithRetry` (lines
178-275): the precondition on the assignment size, then either a
transport/prompt/parse-level failure (`.error` with the thrown message) or
the parsed JSON value, validated and applied. On success the returned
assignment has `justificationsGenerated := true`. -/
def justifierAttempt (assignment : TeamAssignment)
    (reply : Except String JValue) : Except String TeamAssignment :=
  if assignment.assignments.length ≠ 10 then
    .error "Assignment must have exactly 10 assignments"
  else
    match reply with
    | .error e => .error e
    | .ok content => justifierValidateReply assignment content

/-- The retry recursion of `generateJustificationsWithRetry`, structured on
`remaining = MAX_RETRIES - retryCount` exactly as `scorerRetryAux`. -/
def justifierRetryAux (assignment : TeamAssignment)
    (oracle : Nat → Except String JValue) :
    Nat → Nat → Except String TeamAssignment
  | remaining, retryCount =>
    match justifierAttempt assignment (oracle retryCount) with
    | .ok upd => .ok upd
    | .error e =>
      match remaining with
      | r + 1 =>
        if isRetryableError e then
          justifierRetryAux assignment oracle r (retryCount + 1)
        else
          .error ("Justification generation failed after " ++
            toString retryCount ++ " retries: " ++ e)
      | 0 =>
        .error ("Justification generation failed after " ++
          toString retryCount ++ " retries: " ++ e)

/-- `Justifier.generateJustificationsWithRetry` (lines 171-293);
`Justifier.generateJustifications` calls it with `retryCount = 0`. -/
def generateJustificationsWithRetry (assignment : TeamAssignment)
    (oracle : Nat → Except String JValue) (retryCount : Nat) :
    Except String TeamAssignment :=
  justifierRetryAux assignment oracle (MAX_RETRIES - retryCount) retryCount

def sampleAssignment : TeamAssignment :=
  { teamId := "team1",
    assignments := (List.range 10).map (fun i =>
      { applicantId := "a" ++ toString i, roleId := "r" ++ toString i,
        score := 50, justification := none }),
    totalScore := 500, generatedAt := 0, justificationsGenerated := false }

def sampleJustReply : JValue :=
  .arr (JArray.ofList ((List.range 10).map (fun i =>
    .obj (.cons "applicantId" (.str ("a" ++ toString i))
      (.cons "justification" (.str ("good fit " ++ toString i)) .nil)))))

/-! ## The in-memory stores (`teamManager.ts`, `sessionManager.ts`)

`teamManager.ts` keeps module-level maps `teams` and `sessions` (the
assignment sessions); `sessionManager.ts` keeps the administrative parent
`sessions` map. A `Store` value carries all three, and each manager
operation becomes a function from stores to stores, with `new Date()`
passed as an explicit `now : Nat` and each `uuidv4()` as an explicit
fresh-id argument. -/
structure Store where
  teams : List (String × Team)
  asessions : List (String × AssignmentSession)
  psessions : List (String × ParentSession)
deriving DecidableEq, Repr

def ParentStatus.str : ParentStatus → String
  | .active => "active"
  | .ended => "ended"
  | .archived => "archived"

/-- `SessionManager.validateActiveSession` (part_005 lines 694-706). -/
def validateActiveSession (st : Store) (sessionId : String) : Except String Unit :=
  match mfind st.psessions sessionId with
  | none => .error "Session not found"
  | some s =>
    if s.status ≠ .active then
      .error ("Session is " ++ s.status.str ++ " and cannot accept new operations")
    else .ok ()

/-- `TeamManager.getTeamsForSession` (teamManager.ts lines 48-50). -/
def getTeamsForSession (st : Store) (sessionId : String) : List Team :=
  (st.teams.map Prod.snd).filter (fun t => t.sessionId = sessionId)

/-- Stable insertion into a list sorted descending by `createdAt`; together
with `sortByCreatedDesc` this models the (stable) `Array.prototype.sort`
with comparator `(a, b) => b.createdAt.getTime() - a.createdAt.getTime()`. -/
def insertByDesc (x : AssignmentSession) :
    List AssignmentSession → List AssignmentSession
  | [] => [x]
  | y :: ys => if y.createdAt < x.createdAt then x :: y :: ys else y :: insertByDesc x ys

def sortByCreatedDesc : List AssignmentSession → List AssignmentSession
  | [] => []
  | x :: xs => insertByDesc x (sortByCreatedDesc xs)

/-- `TeamManager.getLatestSessionForTeam` (teamManager.ts lines 174-180):
filter the assignment sessions by team, sort newest first, take the head
(`teamSessions[0] || null`). -/
def getLatestSessionForTeam (st : Store) (teamId : String) : Option AssignmentSession :=
  (sortByCreatedDesc ((st.asessions.map Prod.snd).filter
    (fun s => s.teamId = teamId))).head?

/-- `TeamManager.getSessionStats` (teamManager.ts lines 318-340), returning
(totalTeams, completeTeams, totalApplicants, assignedTeams). -/
def tmGetSessionStats (st : Store) (sessionId : String) : Nat × Nat × Nat × Nat :=
  let ts := getTeamsForSession st sessionId
  (ts.length,
   (ts.filter (fun t => t.isComplete)).length,
   (ts.map (fun t => t.applicants.length)).sum,
   (ts.filter (fun t =>
     (getLatestSessionForTeam st t.id).elim false
       (fun s => s.assignment.isSome))).length)

/-- `SessionManager.updateSessionStats` (part_005 lines 612-631): recompute
the parent session's stats from the team manager and stamp `lastActivity`.
Callers ignore the returned success flag, so the session-not-found case is
rendered as leaving the store unchanged. -/
def updateSessionStats (st : Store) (sessionId : String) (now : Nat) : Store :=
  match mfind st.psessions sessionId with
  | none => st
  | some s =>
    let q := tmGetSessionStats st sessionId
    { st with psessions := mset st.psessions sessionId { s with stats := { totalTeams := q.1, completeTeams := q.2.1, totalApplicants := q.2.2.1, assignedTeams := q.2.2.2, lastActivity := now } } }

/-- `TeamManager.createTeam` (teamManager.ts lines 12-34). -/
def createTeam (st : Store) (name sessionId uuid : String) (now : Nat) :
    Except String (Store × Team) :=
  match validateActiveSession st sessionId with
  | .error e => .error e
  | .ok _ =>
    let team : Team := { id := uuid, name := name, applicants := [], createdAt := now, isComplete := false, sessionId := sessionId }
    let st1 := { st with teams := mset st.teams uuid team }
    .ok (updateSessionStats st1 sessionId now, team)

/-- `TeamManager.addApplicant` (teamManager.ts lines 53-89): capacity check,
case-insensitive duplicate-name check, push, recompute `isComplete`. -/
def addApplicant (st : Store) (teamId : String) (name occupation : String)
    (skills personalityTraits : List String) (uuid : String) (now : Nat) :
    Except String (Store × Applicant) :=
  match mfind st.teams teamId with
  | none => .error "Team not found"
  | some team =>
    match validateActiveSession st team.sessionId with
    | .error e => .error ("Cannot add applicant: " ++ e)
    | .ok _ =>
      if 10 ≤ team.applicants.length then
        .error "Team is already full (10 applicants maximum)"
      else if team.applicants.any (fun a => lowerStr a.name = lowerStr name) then
        .error "An applicant with this name already exists in the team"
      else
        let applicant : Applicant := { id := uuid, name := name, occupation := occupation, skills := skills, personalityTraits := personalityTraits, submittedAt := now }
        let apps := team.applicants ++ [applicant]
        let team2 := { team with applicants := apps, isComplete := apps.length == 10 }
        let st1 := { st with teams := mset st.teams teamId team2 }
        .ok (updateSessionStats st1 team.sessionId now, applicant)

/-- `DEFAULT_ROLES` (schema.ts). -/
def DEFAULT_ROLES : List String :=
  ["Team Leader", "Technical Specialist", "Creative Director",
   "Strategy Advisor", "Data Analyst", "Project Coordinator",
   "Quality Assurance", "Communications Lead", "Resource Manager",
   "Innovation Driver"]

/-- Role construction inside `createAssignmentSession` (teamManager.ts lines
137-152); `roleIds` stands for the stream of `uuidv4()` results. For part 2
with custom roles (any array, including an empty one, is truthy in JS) the
count must be exactly 10 and each name is trimmed with the fallback
`Role #(i+1)` for blank names; otherwise the ten `DEFAULT_ROLES` are used. -/
def buildRoles (phase : Phase) (customRoles : Option (List String))
    (roleIds : List String) : Except String (List RoleDefinition) :=
  match phase, customRoles with
  | .part2, some cs =>
      if cs.length ≠ 10 then
        .error "Must provide exactly 10 custom roles for part 2"
      else
        .ok (List.zipWith (fun (p : Nat × String) rid =>
          { id := rid,
            name := if trimStr p.2 = "" then "Role #" ++ toString (p.1 + 1)
                    else trimStr p.2 })
          cs.enum roleIds)
  | _, _ =>
      .ok (List.zipWith (fun name rid =>
        ({ id := rid, name := name } : RoleDefinition)) DEFAULT_ROLES roleIds)

/-- `TeamManager.createAssignmentSession` (teamManager.ts lines 121-166):
team lookup, active parent session, `isComplete`, role construction, then a
fresh `pending` session is stored. Note that the existing assignment
sessions of the team are never consulted. -/
def createAssignmentSession (st : Store) (teamId : String) (phase : Phase)
    (customRoles : Option (List String)) (uuid : String)
    (roleIds : List String) (now : Nat) :
    Except String (Store × AssignmentSession) :=
  match mfind st.teams teamId with
  | none => .error "Team not found"
  | some team =>
    match validateActiveSession st team.sessionId with
    | .error e => .error ("Cannot create assignment: " ++ e)
    | .ok _ =>
      if team.isComplete = false then
        .error "Team must have exactly 10 applicants before assignment"
      else
        match buildRoles phase customRoles roleIds with
        | .error e => .error e
        | .ok roles =>
          let session : AssignmentSession := { id := uuid, teamId := teamId, phase := phase, roles := roles, status := .pending, createdAt := now }
          .ok ({ st with asessions := mset st.asessions uuid session }, session)

/-- `TeamManager.updateSessionStatus` (teamManager.ts lines 183-193); every
caller ignores the success flag, so the session-not-found case is rendered
as leaving the store unchanged. -/
def updateSessionStatus (st : Store) (sessionId : String)
    (status : SessionStatus) : Store :=
  match mfind st.asessions sessionId with
  | none => st
  | some s =>
    { st with asessions := mset st.asessions sessionId { s with status := status } }

/-- The handler's `session.scoreMatrix = scoringResult.scoreMatrix!`
mutation (assignTeam.ts line 86): the `session` object is the one stored in
the sessions map, so the store entry changes with it. -/
def setSessionScoreMatrix (st : Store) (sessionId : String) (sm : ScoreMatrix) : Store :=
  match mfind st.asessions sessionId with
  | none => st
  | some s =>
    { st with asessions := mset st.asessions sessionId { s with scoreMatrix := some sm } }

/-- The `session.assignment = ...` mutations (assignTeam.ts lines 102 and
158), likewise acting on the stored session object. -/
def setSessionAssignment (st : Store) (sessionId : String) (a : TeamAssignment) : Store :=
  match mfind st.asessions sessionId with
  | none => st
  | some s =>
    { st with asessions := mset st.asessions sessionId { s with assignment := some a } }

/-- `TeamManager.resetTeam` (teamManager.ts lines 196-224): clear the
roster, reset `isComplete`, then delete every assignment session whose
`teamId` is the reset team's id, and refresh the parent session stats. -/
def resetTeam (st : Store) (teamId : String) (now : Nat) : Except String Store :=
  match mfind st.teams teamId with
  | none => .error "Team not found"
  | some team =>
    match validateActiveSession st team.sessionId with
    | .error e => .error ("Cannot reset team: " ++ e)
    | .ok _ =>
      let team2 := { team with applicants := [], isComplete := false }
      let st1 := { st with teams := mset st.teams teamId team2 }
      let keys := (st1.asessions.filter (fun p => p.2.teamId = teamId)).map Prod.fst
      let st2 := { st1 with asessions := keys.foldl (fun m k => mdel m k) st1.asessions }
      .ok (updateSessionStats st2 team.sessionId now)

/-- The HTTP response of the `/api/assignTeam` handler, as seen by the
caller. -/
structure HandlerResult where
  httpStatus : Nat
  rsuccess : Bool
  errorMsg : Option String := none
  sessionId : Option String := none
deriving DecidableEq, Repr

/-- The POST `/api/assignTeam` handler (assignTeam.ts lines 9-134), after
the method and request-schema checks; `hasApiKey` models the
`OPENROUTER_API_KEY` environment check, `scoringOutcome` the outcome of
`Scorer.generateScoreMatrix` for this team, `munkresResult` the external
solver's output, and `nowCreate`, `nowAssign` the clock at the session
creation and at `assignRoles`. Returns the resulting store and the response
sent to the caller; the background justification step runs after the
response and is modelled separately (`generateJustificationsBackground`). -/
def assignTeamHandler (st : Store) (hasApiKey : Bool) (teamId : String)
    (phase : Phase) (customRoles : Option (List String)) (uuid : String)
    (roleIds : List String) (scoringOutcome : Except String ScoreMatrix)
    (munkresResult : List (Int × Int)) (nowCreate nowAssign : Nat) :
    Store × HandlerResult :=
  if hasApiKey = false then
    (st, { httpStatus := 500, rsuccess := false,
           errorMsg := some "OpenRouter API key not configured" })
  else
    match mfind st.teams teamId with
    | none => (st, { httpStatus := 404, rsuccess := false,
                     errorMsg := some "Team not found" })
    | some team =>
      if team.isComplete = false then
        (st, { httpStatus := 400, rsuccess := false,
               errorMsg := some "Team must have exactly 10 applicants before assignment" })
      else
        match createAssignmentSession st teamId phase customRoles uuid roleIds nowCreate with
        | .error e => (st, { httpStatus := 400, rsuccess := false, errorMsg := some e })
        | .ok (st1, session) =>
          let st2 := updateSessionStatus st1 session.id .scoring
          match scoringOutcome with
          | .error e =>
            (updateSessionStatus st2 session.id .pending,
             { httpStatus := 500, rsuccess := false,
               errorMsg := some ("Scoring failed: " ++ e) })
          | .ok sm =>
            let st3 := updateSessionStatus (setSessionScoreMatrix st2 session.id sm)
              session.id .assigning
            match assignRoles munkresResult team session.roles sm nowAssign with
            | .error e =>
              (updateSessionStatus st3 session.id .pending,
               { httpStatus := 500, rsuccess := false,
                 errorMsg := some ("Assignment failed: " ++ e) })
            | .ok a =>
              (updateSessionStatus (setSessionAssignment st3 session.id a)
                 session.id .justifying,
               { httpStatus := 200, rsuccess := true, sessionId := some session.id })

/-- `generateJustificationsBackground` (assignTeam.ts lines 137-173): run
the justifier; on success replace the stored assignment (if the session
still exists) and mark the session `complete`; on failure (or a thrown
error) mark it `complete` without touching the assignment. -/
def generateJustificationsBackground (st : Store) (sessionId : String)
    (assignment : TeamAssignment) (oracle : Nat → Except String JValue) : Store :=
  match generateJustificationsWithRetry assignment oracle 0 with
  | .ok updated =>
    match mfind st.asessions sessionId with
    | none => st
    | some _ =>
      updateSessionStatus (setSessionAssignment st sessionId updated) sessionId .complete
  | .error _ => updateSessionStatus st sessionId .complete

def c10PStats : SessionStats :=
  { totalTeams := 0, completeTeams := 0, totalApplicants := 0,
    assignedTeams := 0, lastActivity := 0 }

def c10Store : Store :=
  { teams := [("t1", { id := "t1", name := "Alpha", applicants := [], createdAt := 0, isComplete := false, sessionId := "ps1" }),
              ("t2", { id := "t2", name := "Beta", applicants := [], createdAt := 0, isComplete := false, sessionId := "ps1" })],
    asessions := [("as1", { id := "as1", teamId := "t1", phase := .part1, roles := [], status := .complete, createdAt := 1 }),
                  ("as2", { id := "as2", teamId := "t1", phase := .part1, roles := [], status := .pending, createdAt := 2 }),
                  ("bs1", { id := "bs1", teamId := "t2", phase := .part1, roles := [], status := .complete, createdAt := 3 })],
    psessions := [("ps1", { id := "ps1", status := .active, stats := c10PStats })] }

def c10St2 : Store := (resetTeam c10Store "t1" 7).toOption.getD c10Store

/-! ## C9: concurrent pipeline runs on one team -/
def c9Init : Store :=
  { teams := [], asessions := [],
    psessions := [("ps1", { id := "ps1", status := .active, stats := c10PStats })] }

/-- Scenario driver: add one applicant per (name, uuid) pair through
`addApplicant`. -/
def addApplicantsChain (teamId : String) (st : Store) :
    List (String × String) → Except String Store
  | [] => .ok st
  | (nm, uid) :: rest =>
    match addApplicant st teamId nm "Dev" [] [] uid 1 with
    | .error e => .error e
    | .ok (st1, _) => addApplicantsChain teamId st1 rest

def c9People : List (String × String) :=
  (List.range 10).map (fun i => ("P" ++ toString i, "a" ++ toString i))

def c9RoleIds : List String := (List.range 10).map (fun i => "r" ++ toString i)

/-- A reachable store: create a team in an active parent session, fill it
with 10 applicants, trigger the pipeline once (`createAssignmentSession`)
and let the handler move that session to `scoring` — the state while the
first run is in flight. -/
def c9Scenario : Except String Store :=
  match createTeam c9Init "Team One" "ps1" "t1" 0 with
  | .error e => .error e
  | .ok (st, _) =>
    match addApplicantsChain "t1" st c9People with
    | .error e => .error e
    | .ok st =>
      match createAssignmentSession st "t1" .part1 none "as1" c9RoleIds 5 with
      | .error e => .error e
      | .ok (st, _) => .ok (updateSessionStatus st "as1" .scoring)

def c9St : Store := c9Scenario.toOption.getD c9Init

def c9DummyTeam : Team :=
  { id := "", name := "", applicants := [], createdAt := 0,
    isComplete := false, sessionId := "" }

def c9Team : Team := (mfind c9St.teams "t1").getD c9DummyTeam

def c9DummySession : AssignmentSession :=
  { id := "", teamId := "", phase := .part1, roles := [],
    status := .pending, createdAt := 0 }

def c9Sess : AssignmentSession := (mfind c9St.asessions "as1").getD c9DummySession

def c9Roles : List RoleDefinition :=
  List.zipWith (fun name rid => { id := rid, name := name }) DEFAULT_ROLES c9RoleIds

def c6Asg : TeamAssignment :=
  { teamId := "t1", assignments := [], totalScore := 0, generatedAt := 0, justificationsGenerated := false }

def c6Store : Store :=
  { teams := [], psessions := [],
    asessions := [("as1", { id := "as1", teamId := "t1", phase := .part1, roles := [], assignment := some c6Asg, status := .justifying, createdAt := 1 })] }

/-! ## Theorems -/

theorem mfind_mset_self {α : Type} (m : List (String × α)) (k : String) (v : α) :
    mfind (mset m k v) k = some v := by
  induction m with
  | nil => simp [mset, mfind]
  | cons p rest ih =>
    obtain ⟨pk, pv⟩ := p
    by_cases h : pk = k
    · simp [mset, h, mfind]
    · simp [mset, h, mfind, ih]

theorem mfind_mset_ne {α : Type} (m : List (String × α)) (k k' : String) (v : α)
    (h : k' ≠ k) : mfind (mset m k v) k' = mfind m k' := by
  induction m with
  | nil => simp [mset, mfind, Ne.symm h]
  | cons p rest ih =>
    obtain ⟨pk, pv⟩ := p
    by_cases hp : pk = k
    · simp [mset, hp, mfind, Ne.symm h]
    · by_cases hp' : pk = k'
      · simp [mset, mfind, hp, hp', h]
      · simp [mset, mfind, hp, hp', ih]

theorem mfind_mem {α : Type} {m : List (String × α)} {k : String} {v : α}
    (h : mfind m k = some v) : (k, v) ∈ m := by
  induction m with
  | nil => simp [mfind] at h
  | cons p rest ih =>
    obtain ⟨pk, pv⟩ := p
    rw [mfind] at h
    split at h
    · rename_i heq
      cases h
      subst heq
      exact List.mem_cons_self _ _
    · exact List.mem_cons_of_mem _ (ih h)

theorem mfind_mdel_self {α : Type} (m : List (String × α)) (k : String) :
    mfind (mdel m k) k = none := by
  induction m with
  | nil => rfl
  | cons p rest ih =>
    obtain ⟨pk, pv⟩ := p
    by_cases h : pk = k
    · simpa [mdel, h] using ih
    · simp [mdel, h, mfind, ih]

theorem mfind_mdel_ne {α : Type} (m : List (String × α)) (k k' : String)
    (h : k' ≠ k) : mfind (mdel m k) k' = mfind m k' := by
  induction m with
  | nil => rfl
  | cons p rest ih =>
    obtain ⟨pk, pv⟩ := p
    by_cases hp : pk = k
    · simp [mdel, hp, mfind, Ne.symm h, ih]
    · by_cases hp' : pk = k'
      · simp [mdel, mfind, hp, hp', h]
      · simp [mdel, mfind, hp, hp', ih]

theorem mem_mdel {α : Type} {m : List (String × α)} {k : String}
    {p : String × α} (h : p ∈ mdel m k) : p ∈ m ∧ p.1 ≠ k := by
  induction m with
  | nil => simp [mdel] at h
  | cons q rest ih =>
    obtain ⟨qk, qv⟩ := q
    rw [mdel] at h
    split at h
    · rcases ih h with ⟨h1, h2⟩
      exact ⟨List.mem_cons_of_mem _ h1, h2⟩
    · rename_i hne
      rcases List.mem_cons.mp h with h1 | h1
      · subst h1
        exact ⟨List.mem_cons_self _ _, hne⟩
      · rcases ih h1 with ⟨h2, h3⟩
        exact ⟨List.mem_cons_of_mem _ h2, h3⟩

/-! ## Behaviour of the `assignRoles` build loop -/
theorem buildAssignments_spec (team : Team) (roles : List RoleDefinition)
    (sm : ScoreMatrix) :
    ∀ (pairs : List (Int × Int)) (as : List Assignment) (total : ℚ),
    buildAssignments team roles sm pairs = .ok (as, total) →
    as.length = pairs.length ∧
    total = (as.map (fun x => x.score)).sum ∧
    ∀ x ∈ as, ∃ ai ri : Int,
      (ai, ri) ∈ pairs ∧ 0 ≤ ai ∧ ai < 10 ∧ 0 ≤ ri ∧ ri < 10 ∧
      (∃ app, team.applicants[ai.toNat]? = some app ∧ x.applicantId = app.id) ∧
      (∃ role, roles[ri.toNat]? = some role ∧ x.roleId = role.id) ∧
      x.score = getCell sm.scores ai.toNat ri.toNat := by
  intro pairs
  induction pairs with
  | nil =>
    intro as total h
    rw [buildAssignments] at h
    simp only [Except.ok.injEq, Prod.mk.injEq] at h
    obtain ⟨h1, h2⟩ := h
    subst h1
    subst h2
    simp
  | cons p rest ih =>
    intro as total h
    obtain ⟨ai, ri⟩ := p
    rw [buildAssignments] at h
    split at h
    · exact Except.noConfusion h
    · rename_i hbounds
      split at h
      · exact Except.noConfusion h
      · rename_i applicant happ
        split at h
        · exact Except.noConfusion h
        · rename_i role hrole
          split at h
          · exact Except.noConfusion h
          · rename_i tail t' hrest
            simp only [Except.ok.injEq, Prod.mk.injEq] at h
            obtain ⟨h1, h2⟩ := h
            subst h1
            subst h2
            obtain ⟨ihLen, ihSum, ihMem⟩ := ih tail t' hrest
            push_neg at hbounds
            obtain ⟨hb1, hb2, hb3, hb4⟩ := hbounds
            refine ⟨by simp [ihLen], by simp [ihSum], ?_⟩
            intro x hx
            rcases List.mem_cons.mp hx with hx | hx
            · subst hx
              exact ⟨ai, ri, List.mem_cons_self _ _, hb1, hb2, hb3, hb4,
                ⟨applicant, happ, rfl⟩, ⟨role, hrole, rfl⟩, rfl⟩
            · obtain ⟨ai', ri', hmem, rest'⟩ := ihMem x hx
              exact ⟨ai', ri', List.mem_cons_of_mem _ hmem, rest'⟩

theorem assignRoles_ok_elim {munkresResult : List (Int × Int)} {team : Team}
    {roles : List RoleDefinition} {sm : ScoreMatrix} {now : Nat}
    {a : TeamAssignment}
    (h : assignRoles munkresResult team roles sm now = .ok a) :
    team.applicants.length = 10 ∧ roles.length = 10 ∧
    (sm.scores.length = 10 ∧ ∀ row ∈ sm.scores, row.length = 10) ∧
    munkresResult.length = 10 ∧
    ∃ assignments totalScore,
      buildAssignments team roles sm munkresResult = .ok (assignments, totalScore) ∧
      ((assignments.map (fun x => x.applicantId)).dedup).length = 10 ∧
      ((assignments.map (fun x => x.roleId)).dedup).length = 10 ∧
      a = { teamId := team.id, assignments := assignments,
            totalScore := totalScore, generatedAt := now,
            justificationsGenerated := false } := by
  rw [assignRoles] at h
  split at h
  · exact Except.noConfusion h
  · rename_i h1
    split at h
    · exact Except.noConfusion h
    · rename_i h2
      split at h
      · exact Except.noConfusion h
      · rename_i h3
        split at h
        · exact Except.noConfusion h
        · rename_i h4
          split at h
          · exact Except.noConfusion h
          · rename_i assignments totalScore hbuild
            split at h
            · exact Except.noConfusion h
            · rename_i h5
              split at h
              · exact Except.noConfusion h
              · rename_i h6
                refine ⟨by omega, by omega, by tauto, by omega,
                  assignments, totalScore, hbuild, by omega, by omega, ?_⟩
                simp only [Except.ok.injEq] at h
                exact h.symm

/-- A duplicate-free list of names drawn from a list of the same length
covers every name of that list exactly once. -/
theorem count_eq_one_of_cover {ids tids : List String}
    (hnd : ids.Nodup) (hlen : ids.length = tids.length)
    (hsub : ∀ x ∈ ids, x ∈ tids) : ∀ x ∈ tids, ids.count x = 1 := by
  intro x hx
  have hsubf : ids.toFinset ⊆ tids.toFinset := by
    intro y hy
    exact List.mem_toFinset.mpr (hsub y (List.mem_toFinset.mp hy))
  have hc1 : ids.toFinset.card = ids.length := List.toFinset_card_of_nodup hnd
  have hc2 : tids.toFinset.card ≤ tids.length := List.toFinset_card_le tids
  have heq : ids.toFinset = tids.toFinset :=
    Finset.eq_of_subset_of_card_le hsubf (by omega)
  have hxin : x ∈ ids := by
    have hx' := List.mem_toFinset.mpr hx
    rw [← heq] at hx'
    exact List.mem_toFinset.mp hx'
  exact List.count_eq_one_of_mem hnd hxin

/-- C1: whenever `Assigner.assignRoles` succeeds on a 10-applicant team,
10 roles and a 10x10 matrix, the result holds exactly 10 assignments, the
applicant ids and role ids are each duplicate-free, every applicant id of
the team and every role id occurs exactly once, the total score is the sum
of the assignment scores, and each assignment score is the matrix cell of
its chosen (applicant index, role index) pair from the matching. -/
theorem c1_assignRoles_bijection (munkresResult : List (Int × Int)) (team : Team)
    (roles : List RoleDefinition) (sm : ScoreMatrix) (now : Nat) (a : TeamAssignment)
    (hTeam : team.applicants.length = 10) (hRoles : roles.length = 10)
    (hShape : sm.scores.length = 10 ∧ ∀ row ∈ sm.scores, row.length = 10)
    (hOk : assignRoles munkresResult team roles sm now = .ok a) :
    a.assignments.length = 10 ∧
    (a.assignments.map (fun x => x.applicantId)).Nodup ∧
    (a.assignments.map (fun x => x.roleId)).Nodup ∧
    (∀ app ∈ team.applicants,
      (a.assignments.map (fun x => x.applicantId)).count app.id = 1) ∧
    (∀ r ∈ roles, (a.assignments.map (fun x => x.roleId)).count r.id = 1) ∧
    a.totalScore = (a.assignments.map (fun x => x.score)).sum ∧
    (∀ x ∈ a.assignments, ∃ i j : Nat, i < 10 ∧ j < 10 ∧
      ((i : Int), (j : Int)) ∈ munkresResult ∧
      (∃ app, team.applicants[i]? = some app ∧ x.applicantId = app.id) ∧
      (∃ role, roles[j]? = some role ∧ x.roleId = role.id) ∧
      x.score = getCell sm.scores i j) := by
  obtain ⟨-, -, -, hmlen, assignments, totalScore, hbuild, hdupA, hdupR, ha⟩ :=
    assignRoles_ok_elim hOk
  subst ha
  obtain ⟨hlen, hsum, hmem⟩ := buildAssignments_spec team roles sm _ _ _ hbuild
  have hlen10 : assignments.length = 10 := by rw [hlen, hmlen]
  have hndA : (assignments.map (fun x => x.applicantId)).Nodup := by
    have hd : (assignments.map (fun x => x.applicantId)).dedup
        = assignments.map (fun x => x.applicantId) :=
      (List.dedup_sublist _).eq_of_length (by rw [hdupA, List.length_map, hlen10])
    rw [← hd]
    exact List.nodup_dedup _
  have hndR : (assignments.map (fun x => x.roleId)).Nodup := by
    have hd : (assignments.map (fun x => x.roleId)).dedup
        = assignments.map (fun x => x.roleId) :=
      (List.dedup_sublist _).eq_of_length (by rw [hdupR, List.length_map, hlen10])
    rw [← hd]
    exact List.nodup_dedup _
  have hsubA : ∀ s ∈ assignments.map (fun x => x.applicantId),
      s ∈ team.applicants.map (fun x => x.id) := by
    intro s hs
    obtain ⟨x, hx, rfl⟩ := List.mem_map.mp hs
    obtain ⟨ai, ri, -, -, -, -, -, ⟨app, happ, hid⟩, -, -⟩ := hmem x hx
    exact hid ▸ List.mem_map.mpr ⟨app, List.getElem?_mem happ, rfl⟩
  have hsubR : ∀ s ∈ assignments.map (fun x => x.roleId),
      s ∈ roles.map (fun x => x.id) := by
    intro s hs
    obtain ⟨x, hx, rfl⟩ := List.mem_map.mp hs
    obtain ⟨ai, ri, -, -, -, -, -, -, ⟨role, hrole, hid⟩, -⟩ := hmem x hx
    exact hid ▸ List.mem_map.mpr ⟨role, List.getElem?_mem hrole, rfl⟩
  refine ⟨hlen10, hndA, hndR, ?_, ?_, hsum, ?_⟩
  · intro app happ
    exact count_eq_one_of_cover hndA
      (by rw [List.length_map, List.length_map, hlen10, hTeam]) hsubA app.id
      (List.mem_map.mpr ⟨app, happ, rfl⟩)
  · intro r hr
    exact count_eq_one_of_cover hndR
      (by rw [List.length_map, List.length_map, hlen10, hRoles]) hsubR r.id
      (List.mem_map.mpr ⟨r, hr, rfl⟩)
  · intro x hx
    obtain ⟨ai, ri, hpair, hb1, hb2, hb3, hb4, happ, hrole, hscore⟩ := hmem x hx
    refine ⟨ai.toNat, ri.toNat, by omega, by omega, ?_, happ, hrole, hscore⟩
    have e1 : ((ai.toNat : Int)) = ai := Int.toNat_of_nonneg hb1
    have e2 : ((ri.toNat : Int)) = ri := Int.toNat_of_nonneg hb3
    rw [e1, e2]
    exact hpair

/-! ## Optimality of the assignment (C2 machinery) -/
theorem buildAssignments_perm_eq (team : Team) (roles : List RoleDefinition)
    (sm : ScoreMatrix) (σ : Equiv.Perm (Fin 10))
    (hTeam : team.applicants.length = 10) (hRoles : roles.length = 10) :
    ∀ l : List (Fin 10),
    buildAssignments team roles sm
        (l.map (fun (i : Fin 10) => (((i : Nat) : Int), (((σ i : Fin 10) : Nat) : Int)))) =
      .ok (l.map (fun (i : Fin 10) =>
            { applicantId := (team.applicants.get ⟨(i : Nat), by rw [hTeam]; exact i.isLt⟩).id,
              roleId := (roles.get ⟨((σ i : Fin 10) : Nat), by rw [hRoles]; exact (σ i).isLt⟩).id,
              score := getCell sm.scores (i : Nat) ((σ i : Fin 10) : Nat),
              justification := none }),
          (l.map (fun (i : Fin 10) => getCell sm.scores (i : Nat) ((σ i : Fin 10) : Nat))).sum) := by
  intro l
  induction l with
  | nil => simp [buildAssignments]
  | cons i rest ih =>
    rw [List.map_cons, buildAssignments]
    rw [if_neg (by have h1 := i.isLt; have h2 := (σ i).isLt; omega)]
    have h1 : ((i : Nat) : Int).toNat < team.applicants.length := by
      have := i.isLt
      omega
    have h2 : (((σ i : Fin 10) : Nat) : Int).toNat < roles.length := by
      have := (σ i).isLt
      omega
    rw [List.getElem?_eq_getElem h1, List.getElem?_eq_getElem h2, ih]
    simp [List.get_eq_getElem]

theorem getCell_costMatrix (scores : List (List ℚ)) (i j : Nat)
    (hs : scores.length = 10) (hrow : ∀ row ∈ scores, row.length = 10)
    (hi : i < 10) (hj : j < 10) :
    getCell (costMatrix scores) i j = 100 - getCell scores i j := by
  unfold getCell costMatrix
  have hi' : i < scores.length := by omega
  have hj' : j < (scores[i]).length := by
    rw [hrow (scores[i]) (List.getElem_mem hi')]
    omega
  rw [List.getElem?_map, List.getElem?_eq_getElem hi']
  simp only [Option.map_some', Option.getD_some]
  rw [List.getElem?_map, List.getElem?_eq_getElem hj']
  simp

theorem matchingCost_costMatrix (scores : List (List ℚ)) (σ : Equiv.Perm (Fin 10))
    (hs : scores.length = 10) (hrow : ∀ row ∈ scores, row.length = 10) :
    matchingCost (costMatrix scores) σ = 1000 - matchingScore scores σ := by
  unfold matchingCost matchingScore
  have hcell : ∀ i : Fin 10, getCell (costMatrix scores) (i : Nat) ((σ i : Fin 10) : Nat)
      = 100 - getCell scores (i : Nat) ((σ i : Fin 10) : Nat) := by
    intro i
    exact getCell_costMatrix scores _ _ hs hrow i.isLt (σ i).isLt
  rw [Finset.sum_congr rfl (fun i _ => hcell i), Finset.sum_sub_distrib]
  simp [Finset.sum_const, Finset.card_univ]
  norm_num

theorem finRange_getElem? (i : Fin 10) : (List.finRange 10)[(i : Nat)]? = some i := by
  rw [List.getElem?_eq_getElem (by simp [i.isLt])]
  rw [List.getElem_finRange]
  exact congrArg some (Fin.ext rfl)

theorem idScores_cell : ∀ i j : Fin 10,
    getCell idScores (i : Nat) (j : Nat)
      = if (i : Nat) = (j : Nat) then (100 : ℚ) else 0 := by decide

theorem assignRoles_of_perm {team : Team} {roles : List RoleDefinition}
    {sm : ScoreMatrix} {now : Nat} {a : TeamAssignment} {σ : Equiv.Perm (Fin 10)}
    (hTeam : team.applicants.length = 10) (hRoles : roles.length = 10)
    (hOk : assignRoles (pairsOfPerm σ) team roles sm now = .ok a) :
    a.totalScore = matchingScore sm.scores σ ∧
    a.assignments = (List.finRange 10).map (fun (i : Fin 10) =>
      { applicantId := (team.applicants.get ⟨(i : Nat), by rw [hTeam]; exact i.isLt⟩).id,
        roleId := (roles.get ⟨((σ i : Fin 10) : Nat), by rw [hRoles]; exact (σ i).isLt⟩).id,
        score := getCell sm.scores (i : Nat) ((σ i : Fin 10) : Nat),
        justification := none }) := by
  obtain ⟨-, -, -, -, assignments, totalScore, hbuild, -, -, ha⟩ := assignRoles_ok_elim hOk
  subst ha
  have hperm := buildAssignments_perm_eq team roles sm σ hTeam hRoles (List.finRange 10)
  unfold pairsOfPerm at hbuild
  rw [hperm] at hbuild
  simp only [Except.ok.injEq, Prod.mk.injEq] at hbuild
  obtain ⟨h1, h2⟩ := hbuild
  refine ⟨?_, h1.symm⟩
  unfold matchingScore
  rw [Fin.sum_univ_def]
  exact h2.symm

/-- C2: under the spec model of `munkres-js` (`IsMinCostMatching`), a
successful `assignRoles` maximizes the total score over all bijections
(first conjunct), and on the identity-favoring matrix it pairs applicant i
with role i for every i with total score 1000 (second conjunct). -/
theorem c2_assignRoles_maximal :
    (∀ (team : Team) (roles : List RoleDefinition) (sm : ScoreMatrix) (now : Nat)
       (r : List (Int × Int)) (a : TeamAssignment),
       team.applicants.length = 10 → roles.length = 10 →
       sm.scores.length = 10 → (∀ row ∈ sm.scores, row.length = 10) →
       (∀ row ∈ sm.scores, ∀ q ∈ row, 0 ≤ q ∧ q ≤ 100) →
       IsMinCostMatching (costMatrix sm.scores) r →
       assignRoles r team roles sm now = .ok a →
       ∀ τ : Equiv.Perm (Fin 10), matchingScore sm.scores τ ≤ a.totalScore) ∧
    (∀ (team : Team) (roles : List RoleDefinition) (sm : ScoreMatrix) (now : Nat)
       (r : List (Int × Int)) (a : TeamAssignment),
       team.applicants.length = 10 → roles.length = 10 →
       sm.scores = idScores →
       IsMinCostMatching (costMatrix sm.scores) r →
       assignRoles r team roles sm now = .ok a →
       (∀ i : Fin 10, ∃ app role,
          team.applicants[(i : Nat)]? = some app ∧
          roles[(i : Nat)]? = some role ∧
          a.assignments[(i : Nat)]? =
            some ({ applicantId := app.id, roleId := role.id,
                    score := 100, justification := none } : Assignment)) ∧
       a.totalScore = 1000) := by
  constructor
  · intro team roles sm now r a hTeam hRoles hs hrow hrange hmin hOk τ
    obtain ⟨σ, rfl, hopt⟩ := hmin
    obtain ⟨hts, -⟩ := assignRoles_of_perm hTeam hRoles hOk
    rw [hts]
    have h1 := hopt τ
    rw [matchingCost_costMatrix sm.scores σ hs hrow,
      matchingCost_costMatrix sm.scores τ hs hrow] at h1
    linarith
  · intro team roles sm now r a hTeam hRoles hid hmin hOk
    obtain ⟨σ, rfl, hopt⟩ := hmin
    have hs : sm.scores.length = 10 := by rw [hid]; decide
    have hrow : ∀ row ∈ sm.scores, row.length = 10 := by rw [hid]; decide
    have hcell : ∀ i j : Fin 10, getCell sm.scores (i : Nat) (j : Nat)
        = if (i : Nat) = (j : Nat) then (100 : ℚ) else 0 := by
      rw [hid]
      exact idScores_cell
    have hterm : ∀ i : Fin 10,
        (0 : ℚ) ≤ getCell (costMatrix sm.scores) (i : Nat) ((σ i : Fin 10) : Nat) := by
      intro i
      rw [getCell_costMatrix sm.scores _ _ hs hrow i.isLt (σ i).isLt, hcell]
      split <;> norm_num
    have hid_cost : matchingCost (costMatrix sm.scores) 1 = 0 := by
      unfold matchingCost
      refine Finset.sum_eq_zero ?_
      intro i _
      rw [show ((1 : Equiv.Perm (Fin 10)) i : Fin 10) = i from Equiv.Perm.one_apply i]
      rw [getCell_costMatrix sm.scores _ _ hs hrow i.isLt i.isLt, hcell]
      simp
    have hzero : matchingCost (costMatrix sm.scores) σ = 0 := by
      have hle := hopt 1
      rw [hid_cost] at hle
      have hge : (0 : ℚ) ≤ matchingCost (costMatrix sm.scores) σ := by
        unfold matchingCost
        exact Finset.sum_nonneg (fun i _ => hterm i)
      linarith
    have hfix : ∀ i : Fin 10, σ i = i := by
      unfold matchingCost at hzero
      have hall := (Finset.sum_eq_zero_iff_of_nonneg (fun i _ => hterm i)).mp hzero
      intro i
      have hterm0 := hall i (Finset.mem_univ i)
      rw [getCell_costMatrix sm.scores _ _ hs hrow i.isLt (σ i).isLt, hcell] at hterm0
      by_cases hc : (i : Nat) = ((σ i : Fin 10) : Nat)
      · exact Fin.ext hc.symm
      · rw [if_neg hc] at hterm0
        norm_num at hterm0
    have hσ : σ = 1 := Equiv.ext (fun i => by rw [hfix i, Equiv.Perm.one_apply])
    subst hσ
    obtain ⟨hts, hassign⟩ := assignRoles_of_perm hTeam hRoles hOk
    constructor
    · intro i
      have hia : (i : Nat) < team.applicants.length := by
        rw [hTeam]
        exact i.isLt
      have hir : (i : Nat) < roles.length := by
        rw [hRoles]
        exact i.isLt
      refine ⟨team.applicants[(i : Nat)], roles[(i : Nat)],
        List.getElem?_eq_getElem hia, List.getElem?_eq_getElem hir, ?_⟩
      rw [hassign, List.getElem?_map, finRange_getElem?]
      simp only [Option.map_some', Option.some.injEq, Assignment.mk.injEq,
        List.get_eq_getElem, Equiv.Perm.one_apply]
      refine ⟨trivial, trivial, ?_, trivial⟩
      rw [hcell]
      simp
    · rw [hts]
      have hms : ∀ i : Fin 10,
          getCell sm.scores ((i : Nat)) ((((1 : Equiv.Perm (Fin 10)) i : Fin 10)) : Nat)
            = 100 := by
        intro i
        rw [show ((1 : Equiv.Perm (Fin 10)) i : Fin 10) = i from Equiv.Perm.one_apply i,
          hcell]
        simp
      unfold matchingScore
      rw [Finset.sum_congr rfl (fun i _ => hms i)]
      simp [Finset.sum_const, Finset.card_univ]
      norm_num

/-- Witness for C1: the success conclusion evaluated at the sample inputs. -/
theorem c1_assignRoles_bijection_witness :
    ∃ a, assignRoles idPairs sampleTeam sampleRoles sampleSM 0 = .ok a ∧
      a.assignments.length = 10 ∧
      a.totalScore = (a.assignments.map (fun x => x.score)).sum := by
  have hOkB : (assignRoles idPairs sampleTeam sampleRoles sampleSM 0).isOk = true := by
    decide
  cases hEq : assignRoles idPairs sampleTeam sampleRoles sampleSM 0 with
  | error e =>
    rw [hEq] at hOkB
    simp [Except.isOk, Except.toBool] at hOkB
  | ok a =>
    have h := c1_assignRoles_bijection idPairs sampleTeam sampleRoles sampleSM 0 a
      (by decide) (by decide) (by decide) hEq
    exact ⟨a, rfl, h.1, h.2.2.2.2.2.1⟩

theorem idPairs_min_cost : IsMinCostMatching (costMatrix idScores) idPairs := by
  refine ⟨1, by decide, ?_⟩
  intro τ
  have h0 : matchingCost (costMatrix idScores) 1 = 0 := by
    unfold matchingCost
    refine Finset.sum_eq_zero ?_
    intro i _
    rw [show ((1 : Equiv.Perm (Fin 10)) i : Fin 10) = i from Equiv.Perm.one_apply i]
    rw [getCell_costMatrix idScores _ _ (by decide) (by decide) i.isLt i.isLt,
      idScores_cell]
    simp
  rw [h0]
  unfold matchingCost
  refine Finset.sum_nonneg ?_
  intro i _
  rw [getCell_costMatrix idScores _ _ (by decide) (by decide) i.isLt (τ i).isLt,
    idScores_cell]
  split <;> norm_num

/-- Witness for C2: on the identity-favoring matrix with a concrete
min-cost matching, the sample run yields total score 1000. -/
theorem c2_assignRoles_maximal_witness :
    ∃ a, assignRoles idPairs sampleTeam sampleRoles sampleSM 0 = .ok a ∧
      a.totalScore = 1000 := by
  have hOkB : (assignRoles idPairs sampleTeam sampleRoles sampleSM 0).isOk = true := by
    decide
  cases hEq : assignRoles idPairs sampleTeam sampleRoles sampleSM 0 with
  | error e =>
    rw [hEq] at hOkB
    simp [Except.isOk, Except.toBool] at hOkB
  | ok a =>
    have h := c2_assignRoles_maximal.2 sampleTeam sampleRoles sampleSM 0 idPairs a
      (by decide) (by decide) rfl idPairs_min_cost hEq
    exact ⟨a, rfl, h.2⟩

/-! ## Determinism of `assignRoles` (C3) -/
/-- The invocation clock only enters the result through `generatedAt`. -/
theorem assignRoles_generatedAt_shift (munkresResult : List (Int × Int))
    (team : Team) (roles : List RoleDefinition) (sm : ScoreMatrix) (now : Nat) :
    assignRoles munkresResult team roles sm now =
      (assignRoles munkresResult team roles sm 0).map
        (fun a => { a with generatedAt := now }) := by
  unfold assignRoles
  repeat' split
  all_goals rfl

/-- C3 counterexample: two invocations of `assignRoles` on identical
(team, roles, matrix) input made at clock values 0 and 1 return results
that are not equal in every field. -/
theorem c3_assignRoles_not_identical :
    assignRoles idPairs sampleTeam sampleRoles sampleSM 0 ≠
      assignRoles idPairs sampleTeam sampleRoles sampleSM 1 := by
  intro h
  have h0 : exGeneratedAt (assignRoles idPairs sampleTeam sampleRoles sampleSM 0)
      = some 0 := by decide
  have h1 : exGeneratedAt (assignRoles idPairs sampleTeam sampleRoles sampleSM 1)
      = some 1 := by decide
  rw [h] at h0
  rw [h0] at h1
  simp at h1

/-- C3 amended: `assignRoles` is deterministic in every field except
`generatedAt`, which records the invocation time: scrubbing `generatedAt`
makes any two invocations on the same input equal, and on success the
pairings, total score, team id and justification flag agree while
`generatedAt` equals each invocation clock. -/
theorem c3_assignRoles_deterministic_mod_time (munkresResult : List (Int × Int))
    (team : Team) (roles : List RoleDefinition) (sm : ScoreMatrix)
    (now1 now2 : Nat) :
    ((assignRoles munkresResult team roles sm now1).map
        (fun a => { a with generatedAt := 0 }) =
      (assignRoles munkresResult team roles sm now2).map
        (fun a => { a with generatedAt := 0 })) ∧
    (∀ a1 a2, assignRoles munkresResult team roles sm now1 = .ok a1 →
       assignRoles munkresResult team roles sm now2 = .ok a2 →
       a1.teamId = a2.teamId ∧ a1.assignments = a2.assignments ∧
       a1.totalScore = a2.totalScore ∧
       a1.justificationsGenerated = a2.justificationsGenerated ∧
       a1.generatedAt = now1 ∧ a2.generatedAt = now2) := by
  constructor
  · rw [assignRoles_generatedAt_shift munkresResult team roles sm now1,
      assignRoles_generatedAt_shift munkresResult team roles sm now2]
    cases assignRoles munkresResult team roles sm 0 <;> simp [Except.map]
  · intro a1 a2 h1 h2
    rw [assignRoles_generatedAt_shift munkresResult team roles sm now1] at h1
    rw [assignRoles_generatedAt_shift munkresResult team roles sm now2] at h2
    cases hbase : assignRoles munkresResult team roles sm 0 with
    | error e =>
      rw [hbase] at h1
      exact Except.noConfusion h1
    | ok a =>
      rw [hbase] at h1
      rw [hbase] at h2
      simp only [Except.map, Except.ok.injEq] at h1 h2
      subst h1
      subst h2
      exact ⟨rfl, rfl, rfl, rfl, rfl, rfl⟩

/-- Witness for the amended C3 theorem at the sample inputs. -/
theorem c3_assignRoles_deterministic_mod_time_witness :
    ∃ a1 a2,
      assignRoles idPairs sampleTeam sampleRoles sampleSM 0 = .ok a1 ∧
      assignRoles idPairs sampleTeam sampleRoles sampleSM 1 = .ok a2 ∧
      a1.assignments = a2.assignments ∧ a1.totalScore = a2.totalScore ∧
      a1.generatedAt = 0 ∧ a2.generatedAt = 1 := by
  have hOkB : (assignRoles idPairs sampleTeam sampleRoles sampleSM 0).isOk = true := by
    decide
  have hOkB1 : (assignRoles idPairs sampleTeam sampleRoles sampleSM 1).isOk = true := by
    decide
  cases hEq1 : assignRoles idPairs sampleTeam sampleRoles sampleSM 0 with
  | error e =>
    rw [hEq1] at hOkB
    simp [Except.isOk, Except.toBool] at hOkB
  | ok a1 =>
    cases hEq2 : assignRoles idPairs sampleTeam sampleRoles sampleSM 1 with
    | error e =>
      rw [hEq2] at hOkB1
      simp [Except.isOk, Except.toBool] at hOkB1
    | ok a2 =>
      have h := (c3_assignRoles_deterministic_mod_time idPairs sampleTeam sampleRoles
        sampleSM 0 1).2 a1 a2 hEq1 hEq2
      exact ⟨a1, a2, rfl, rfl, h.2.1, h.2.2.1, h.2.2.2.2⟩

theorem JArray.toList_ofList (l : List JValue) : (JArray.ofList l).toList = l := by
  induction l with
  | nil => rfl
  | cons v rest ih => simp [JArray.ofList, JArray.toList, ih]

theorem JArray.length_toList : ∀ a : JArray, a.toList.length = a.length
  | .nil => rfl
  | .cons v rest => by simp [JArray.toList, JArray.length, JArray.length_toList rest]

/-! ## Characterization of the scorer validation (C4 machinery) -/
theorem JArray.length_ofList : ∀ l : List JValue, (JArray.ofList l).length = l.length
  | [] => rfl
  | v :: rest => by simp [JArray.ofList, JArray.length, JArray.length_ofList rest]

theorem JArray.ofList_toList : ∀ a : JArray, JArray.ofList a.toList = a
  | .nil => rfl
  | .cons v rest => by simp [JArray.toList, JArray.ofList, JArray.ofList_toList rest]

theorem checkCell_ok (i j : Nat) (c : JValue) (q : ℚ) :
    checkCell i j c = .ok q ↔ c = .num (.fin q) ∧ 0 ≤ q ∧ q ≤ 100 := by
  cases c with
  | num n =>
    cases n with
    | fin q' =>
      rw [checkCell]
      split
      · rename_i hc
        constructor
        · intro h
          exact Except.noConfusion h
        · rintro ⟨he, h0, h1⟩
          have hq : q' = q := by
            injection he with hn
            injection hn with hq
          subst hq
          rcases hc with hc | hc <;> linarith
      · rename_i hc
        push_neg at hc
        constructor
        · intro h
          injection h with h
          subst h
          exact ⟨rfl, hc.1, hc.2⟩
        · rintro ⟨he, -, -⟩
          have hq : q' = q := by
            injection he with hn
            injection hn with hq
          subst hq
          rfl
    | posInf => simp [checkCell]
    | negInf => simp [checkCell]
  | str s => simp [checkCell]
  | bool b => simp [checkCell]
  | null => simp [checkCell]
  | arr a => simp [checkCell]
  | obj o => simp [checkCell]

theorem checkRowCells_ok (i : Nat) :
    ∀ (cells : List JValue) (j : Nat) (qs : List ℚ),
    checkRowCells i j cells = .ok qs ↔
      cells = qs.map (fun q => JValue.num (.fin q)) ∧
      ∀ q ∈ qs, 0 ≤ q ∧ q ≤ 100 := by
  intro cells
  induction cells with
  | nil =>
    intro j qs
    rw [checkRowCells]
    constructor
    · intro h
      injection h with h
      subst h
      simp
    · rintro ⟨he, -⟩
      cases qs with
      | nil => rfl
      | cons q rest => simp at he
  | cons c rest ih =>
    intro j qs
    rw [checkRowCells]
    constructor
    · intro h
      split at h
      · exact Except.noConfusion h
      · rename_i q hq
        split at h
        · exact Except.noConfusion h
        · rename_i qs' hqs
          injection h with h
          subst h
          obtain ⟨hce, h0, h1⟩ := (checkCell_ok i j c q).mp hq
          obtain ⟨hre, hall⟩ := (ih (j + 1) qs').mp hqs
          subst hce
          subst hre
          refine ⟨by simp, ?_⟩
          intro q' hq'
          rcases List.mem_cons.mp hq' with h | h
          · subst h
            exact ⟨h0, h1⟩
          · exact hall q' h
    · rintro ⟨he, hall⟩
      cases qs with
      | nil => simp at he
      | cons q qs' =>
        simp only [List.map_cons, List.cons.injEq] at he
        obtain ⟨he1, he2⟩ := he
        subst he1
        subst he2
        rw [(checkCell_ok i j _ q).mpr
          ⟨rfl, (hall q (List.mem_cons_self _ _)).1, (hall q (List.mem_cons_self _ _)).2⟩]
        rw [(ih (j + 1) qs').mpr ⟨rfl, fun q' h => hall q' (List.mem_cons_of_mem _ h)⟩]

theorem checkRow_ok (i : Nat) (r : JValue) (qs : List ℚ) :
    checkRow i r = .ok qs ↔
      r = encodeRow qs ∧ qs.length = 10 ∧ ∀ q ∈ qs, 0 ≤ q ∧ q ≤ 100 := by
  cases r with
  | arr cells =>
    rw [checkRow]
    split
    · rename_i hlen
      constructor
      · intro h
        exact Except.noConfusion h
      · rintro ⟨he, hlen10, -⟩
        simp only [encodeRow] at he
        injection he with ha
        exfalso
        apply hlen
        rw [ha, JArray.length_ofList, List.length_map, hlen10]
    · rename_i hlen
      push_neg at hlen
      constructor
      · intro h
        obtain ⟨he, hall⟩ := (checkRowCells_ok i cells.toList 0 qs).mp h
        have hc : cells = JArray.ofList (qs.map (fun q => JValue.num (.fin q))) := by
          rw [← JArray.ofList_toList cells, he]
        have hlt : cells.toList.length = qs.length := by
          rw [he, List.length_map]
        rw [JArray.length_toList] at hlt
        refine ⟨by simp only [encodeRow]; rw [hc], by omega, hall⟩
      · rintro ⟨he, hlen10, hall⟩
        simp only [encodeRow] at he
        injection he with ha
        subst ha
        rw [JArray.toList_ofList]
        exact (checkRowCells_ok i _ 0 qs).mpr ⟨rfl, hall⟩
  | num n => simp [checkRow, encodeRow]
  | str s => simp [checkRow, encodeRow]
  | bool b => simp [checkRow, encodeRow]
  | null => simp [checkRow, encodeRow]
  | obj o => simp [checkRow, encodeRow]

theorem checkRows_ok :
    ∀ (rows : List JValue) (i : Nat) (qss : List (List ℚ)),
    checkRows i rows = .ok qss ↔
      rows = qss.map encodeRow ∧
      ∀ row ∈ qss, row.length = 10 ∧ ∀ q ∈ row, 0 ≤ q ∧ q ≤ 100 := by
  intro rows
  induction rows with
  | nil =>
    intro i qss
    rw [checkRows]
    constructor
    · intro h
      injection h with h
      subst h
      simp
    · rintro ⟨he, -⟩
      cases qss with
      | nil => rfl
      | cons r rest => simp at he
  | cons r rest ih =>
    intro i qss
    rw [checkRows]
    constructor
    · intro h
      split at h
      · exact Except.noConfusion h
      · rename_i row hrow
        split at h
        · exact Except.noConfusion h
        · rename_i rows' hrows
          injection h with h
          subst h
          obtain ⟨hre, hlen10, hall⟩ := (checkRow_ok i r row).mp hrow
          obtain ⟨hrre, hall'⟩ := (ih (i + 1) rows').mp hrows
          subst hre
          subst hrre
          refine ⟨by simp, ?_⟩
          intro row' hrow'
          rcases List.mem_cons.mp hrow' with h | h
          · subst h
            exact ⟨hlen10, hall⟩
          · exact hall' row' h
    · rintro ⟨he, hall⟩
      cases qss with
      | nil => simp at he
      | cons row rows' =>
        simp only [List.map_cons, List.cons.injEq] at he
        obtain ⟨he1, he2⟩ := he
        subst he1
        subst he2
        rw [(checkRow_ok i _ row).mpr
          ⟨rfl, (hall row (List.mem_cons_self _ _)).1, (hall row (List.mem_cons_self _ _)).2⟩]
        rw [(ih (i + 1) rows').mpr ⟨rfl, fun row' h => hall row' (List.mem_cons_of_mem _ h)⟩]

theorem scorerValidate_ok (v : JValue) (scores : List (List ℚ)) :
    scorerValidate v = .ok scores ↔
      v = encodeMatrix scores ∧ scores.length = 10 ∧
      (∀ row ∈ scores, row.length = 10) ∧
      (∀ row ∈ scores, ∀ q ∈ row, 0 ≤ q ∧ q ≤ 100) := by
  cases v with
  | arr rows =>
    rw [scorerValidate]
    split
    · rename_i hlen
      constructor
      · intro h
        exact Except.noConfusion h
      · rintro ⟨he, hl, -, -⟩
        simp only [encodeMatrix] at he
        injection he with ha
        exfalso
        apply hlen
        rw [ha, JArray.length_ofList, List.length_map, hl]
    · rename_i hlen
      push_neg at hlen
      constructor
      · intro h
        obtain ⟨he, hprops⟩ := (checkRows_ok rows.toList 0 scores).mp h
        have hv : rows = JArray.ofList (scores.map encodeRow) := by
          rw [← JArray.ofList_toList rows, he]
        have hlt : rows.toList.length = scores.length := by
          rw [he, List.length_map]
        rw [JArray.length_toList] at hlt
        refine ⟨by simp only [encodeMatrix]; rw [hv], by omega, ?_, ?_⟩
        · intro row hrow
          exact (hprops row hrow).1
        · intro row hrow
          exact (hprops row hrow).2
      · rintro ⟨he, hl, hrl, hrange⟩
        simp only [encodeMatrix] at he
        injection he with ha
        subst ha
        rw [JArray.toList_ofList]
        exact (checkRows_ok _ 0 scores).mpr
          ⟨rfl, fun row h => ⟨hrl row h, hrange row h⟩⟩
  | num n => simp [scorerValidate, encodeMatrix]
  | str s => simp [scorerValidate, encodeMatrix]
  | bool b => simp [scorerValidate, encodeMatrix]
  | null => simp [scorerValidate, encodeMatrix]
  | obj o => simp [scorerValidate, encodeMatrix]

theorem scorerRetryAux_all_fail (team : Team) (roles : List RoleDefinition)
    (oracle : Nat → Except String JValue) (now : Nat)
    (hfail : ∀ k, (scorerOneAttempt team.id oracle now k).isOk = false) :
    ∀ remaining retryCount,
    (scorerRetryAux team roles oracle now remaining retryCount).result.isOk
      = false := by
  intro remaining
  induction remaining with
  | zero =>
    intro rc
    rw [scorerRetryAux]
    split
    · rfl
    · split
      · rfl
      · split
        · rename_i m hm
          have hf := hfail rc
          rw [hm] at hf
          simp [Except.isOk, Except.toBool] at hf
        · rfl
  | succ r ih =>
    intro rc
    rw [scorerRetryAux]
    split
    · rfl
    · split
      · rfl
      · split
        · rename_i m hm
          have hf := hfail rc
          rw [hm] at hf
          simp [Except.isOk, Except.toBool] at hf
        · rename_i e he
          split
          next r' hr' =>
            have hr : r' = r := by omega
            subst hr
            split
            · exact ih (rc + 1)
            · rfl
          next hr0 => rfl

/-- C4: the scoring reply is accepted exactly when it is a 10x10 nested
numeric array with every cell a finite number in [0,100] (first conjunct);
and whenever the parsed reply fails that validation, the whole scoring
call fails with an error and produces no `ScoreMatrix` (second conjunct). -/
theorem c4_scorer_reply_validation :
    (∀ (v : JValue) (scores : List (List ℚ)),
       scorerValidate v = .ok scores ↔
         v = encodeMatrix scores ∧ scores.length = 10 ∧
         (∀ row ∈ scores, row.length = 10) ∧
         (∀ row ∈ scores, ∀ q ∈ row, 0 ≤ q ∧ q ≤ 100)) ∧
    (∀ (team : Team) (roles : List RoleDefinition) (v : JValue) (now : Nat),
       (scorerValidate v).isOk = false →
       ∀ retryCount,
       (generateScoreMatrixWithRetry team roles (fun _ => .ok v) now
           retryCount).result.isOk = false) := by
  refine ⟨scorerValidate_ok, ?_⟩
  intro team roles v now hbad retryCount
  unfold generateScoreMatrixWithRetry
  apply scorerRetryAux_all_fail
  intro k
  have hstep : scorerOneAttempt team.id (fun _ => .ok v) now k =
      match scorerValidate v with
      | .error e => .error e
      | .ok scores => .ok { teamId := team.id, scores := scores, generatedAt := now } :=
    rfl
  rw [hstep]
  cases hv : scorerValidate v with
  | error e => rfl
  | ok scores =>
    rw [hv] at hbad
    simp [Except.isOk, Except.toBool] at hbad

/-- Witness for C4: a reply that parses to an empty array is rejected by
the validation and the scoring call fails. -/
theorem c4_scorer_reply_validation_witness :
    (scorerValidate (.arr .nil)).isOk = false ∧
    (generateScoreMatrixWithRetry sampleTeam sampleRoles
        (fun _ => .ok (.arr .nil)) 0 0).result.isOk = false := by
  refine ⟨by decide, ?_⟩
  exact c4_scorer_reply_validation.2 sampleTeam sampleRoles (.arr .nil) 0 (by decide) 0

/-! ## The retry policy (C8) -/
/-- Behaviour of the retry loop when every attempt fails with a retryable
error: each level makes one oracle call, sleeps `RETRY_DELAY * 2 ^
retryCount`, and recurses until `remaining` runs out. -/
theorem scorerRetryAux_persistent (team : Team) (roles : List RoleDefinition)
    (oracle : Nat → Except String JValue) (now : Nat)
    (hTeam : team.applicants.length = 10) (hRoles : roles.length = 10) :
    ∀ remaining retryCount,
    (∀ k, retryCount ≤ k → k ≤ retryCount + remaining →
      ∃ e, scorerOneAttempt team.id oracle now k = .error e ∧
        isRetryableError e = true) →
    (scorerRetryAux team roles oracle now remaining retryCount).oracleCalls
        = remaining + 1 ∧
    (scorerRetryAux team roles oracle now remaining retryCount).delays
        = (List.range remaining).map (fun k => RETRY_DELAY * 2 ^ (retryCount + k)) ∧
    (scorerRetryAux team roles oracle now remaining retryCount).result.isOk
        = false := by
  intro remaining
  induction remaining with
  | zero =>
    intro rc hall
    obtain ⟨e, he, -⟩ := hall rc (Nat.le_refl rc) (by omega)
    rw [scorerRetryAux, if_neg (by omega), if_neg (by omega), he]
    exact ⟨rfl, rfl, rfl⟩
  | succ r ih =>
    intro rc hall
    obtain ⟨e, he, hretry⟩ := hall rc (Nat.le_refl rc) (by omega)
    have hall' : ∀ k, rc + 1 ≤ k → k ≤ rc + 1 + r →
        ∃ e, scorerOneAttempt team.id oracle now k = .error e ∧
          isRetryableError e = true := fun k h1 h2 => hall k (by omega) (by omega)
    obtain ⟨ihc, ihd, ihr⟩ := ih (rc + 1) hall'
    rw [scorerRetryAux, if_neg (by omega), if_neg (by omega)]
    split
    · rename_i m hm
      rw [he] at hm
      exact Except.noConfusion hm
    · rename_i e' he'
      rw [he] at he'
      injection he' with he'
      subst he'
      split
      next r' hr' =>
        obtain rfl : r' = r := by omega
        rw [if_pos hretry]
        refine ⟨?_, ?_, ?_⟩
        · simp only [ihc]
          omega
        · simp only [ihd, List.range_succ_eq_map, List.map_cons, List.map_map]
          refine congrArg₂ List.cons (by rw [Nat.add_zero]) ?_
          refine List.map_congr_left ?_
          intro k hk
          simp only [Function.comp]
          refine congrArg (fun n => RETRY_DELAY * 2 ^ n) ?_
          omega
        · simp only [ihr]
      next hr0 => exact absurd hr0 (by omega)

/-- C8 counterexample: a failure carrying HTTP status 501 — a 5xx server
error — is classified terminal by `isRetryableError` (the code only looks
for the substrings 500/502/503/504), so the unit makes exactly one attempt
and is not retried, contradicting the claim that only non-5xx failures are
terminal. -/
theorem c8_http501_not_retried :
    isRetryableError (apiErrorMsg 501 "Not Implemented") = false ∧
    generateScoreMatrixWithRetry sampleTeam sampleRoles
        (fun _ => .error (apiErrorMsg 501 "Not Implemented")) 0 0 =
      { result := .error ("Scoring failed after 0 retries: " ++
          apiErrorMsg 501 "Not Implemented"),
        oracleCalls := 1, delays := [] } := by
  exact ⟨by decide, by decide⟩

/-- C8 amended: failures are classified by `isRetryableError` (substring
tests for network/timeout/fetch, rate limit/429/too many requests, and the
specific codes 500/502/503/504 — so e.g. a 501 is terminal). A terminal
first failure makes exactly one oracle call with no delay and reports
failure; a persistently retryable failure makes 1 + MAX_RETRIES = 4 calls
with delays `RETRY_DELAY * 2 ^ attempt` for attempts 0, 1, 2 and then
reports failure. -/
theorem c8_retry_policy :
    (∀ (team : Team) (roles : List RoleDefinition)
       (oracle : Nat → Except String JValue) (now : Nat) (e : String),
       team.applicants.length = 10 → roles.length = 10 →
       scorerOneAttempt team.id oracle now 0 = .error e →
       isRetryableError e = false →
       generateScoreMatrixWithRetry team roles oracle now 0 =
         { result := .error ("Scoring failed after 0 retries: " ++ e),
           oracleCalls := 1, delays := [] }) ∧
    (∀ (team : Team) (roles : List RoleDefinition)
       (oracle : Nat → Except String JValue) (now : Nat),
       team.applicants.length = 10 → roles.length = 10 →
       (∀ k, k ≤ MAX_RETRIES →
         ∃ e, scorerOneAttempt team.id oracle now k = .error e ∧
           isRetryableError e = true) →
       (generateScoreMatrixWithRetry team roles oracle now 0).oracleCalls = 4 ∧
       (generateScoreMatrixWithRetry team roles oracle now 0).delays
         = [1000, 2000, 4000] ∧
       (generateScoreMatrixWithRetry team roles oracle now 0).result.isOk
         = false) := by
  constructor
  · intro team roles oracle now e hTeam hRoles hatt hterm
    unfold generateScoreMatrixWithRetry
    rw [show MAX_RETRIES - 0 = 2 + 1 from rfl]
    rw [scorerRetryAux, if_neg (by omega), if_neg (by omega)]
    split
    · rename_i m hm
      rw [hatt] at hm
      exact Except.noConfusion hm
    · rename_i e' he'
      rw [hatt] at he'
      injection he' with he'
      subst he'
      split
      next r' hr' =>
        rw [if_neg (by simp [hterm])]
        rfl
      next hr0 => exact absurd hr0 (by omega)
  · intro team roles oracle now hTeam hRoles hall
    have h := scorerRetryAux_persistent team roles oracle now hTeam hRoles
      MAX_RETRIES 0 (by intro k h1 h2; exact hall k (by omega))
    unfold generateScoreMatrixWithRetry
    rw [show MAX_RETRIES - 0 = MAX_RETRIES from rfl]
    refine ⟨by rw [h.1]; rfl, ?_, h.2.2⟩
    rw [h.2.1]
    decide

/-- Witness for the amended C8 theorem: a shape-error reply (terminal)
makes one call; a persistent network error makes four calls. -/
theorem c8_retry_policy_witness :
    generateScoreMatrixWithRetry sampleTeam sampleRoles
        (fun _ => .ok (.arr .nil)) 0 0 =
      { result := .error ("Scoring failed after 0 retries: " ++
          "Score matrix must be 10x10"), oracleCalls := 1, delays := [] } ∧
    (generateScoreMatrixWithRetry sampleTeam sampleRoles
        (fun _ => .error "network down") 0 0).oracleCalls = 4 := by
  constructor
  · exact c8_retry_policy.1 sampleTeam sampleRoles (fun _ => .ok (.arr .nil)) 0
      "Score matrix must be 10x10" (by decide) (by decide) (by decide) (by decide)
  · have h := c8_retry_policy.2 sampleTeam sampleRoles (fun _ => .error "network down") 0
      (by decide) (by decide)
      (fun k _ => ⟨"network down", rfl, by decide⟩)
    exact h.1

theorem mem_jmapSet {m : List (JValue × String)} {k k' : JValue} {v v' : String}
    (h : (k, v) ∈ jmapSet m k' v') : (k, v) ∈ m ∨ (k = k' ∧ v = v') := by
  induction m with
  | nil =>
    rw [jmapSet] at h
    rcases List.mem_cons.mp h with h | h
    · right
      exact ⟨congrArg Prod.fst h, congrArg Prod.snd h⟩
    · simp at h
  | cons p rest ih =>
    obtain ⟨pk, pv⟩ := p
    rw [jmapSet] at h
    split at h
    · rcases List.mem_cons.mp h with h | h
      · right
        exact ⟨congrArg Prod.fst h, congrArg Prod.snd h⟩
      · left
        exact List.mem_cons_of_mem _ h
    · rcases List.mem_cons.mp h with h | h
      · left
        rw [h]
        exact List.mem_cons_self _ _
      · rcases ih h with h | h
        · left
          exact List.mem_cons_of_mem _ h
        · right
          exact h

theorem jmapGet_mem {m : List (JValue × String)} {k : JValue} {v : String}
    (h : jmapGet m k = some v) : (k, v) ∈ m := by
  induction m with
  | nil => simp [jmapGet] at h
  | cons p rest ih =>
    obtain ⟨pk, pv⟩ := p
    rw [jmapGet] at h
    split at h
    · rename_i heq
      cases h
      subst heq
      exact List.mem_cons_self _ _
    · exact List.mem_cons_of_mem _ (ih h)

theorem buildJustMap_spec :
    ∀ (items : List JValue) (acc jmap : List (JValue × String)),
    buildJustMap items acc = .ok jmap →
    (∀ item ∈ items, ∃ idv s, item.getField "applicantId" = some idv ∧
      idv.truthy = true ∧ item.getField "justification" = some (.str s) ∧
      s ≠ "" ∧ s.length ≤ 500) ∧
    (∀ p ∈ jmap, p ∈ acc ∨ ∃ item ∈ items, ∃ s : String,
      item.getField "applicantId" = some p.1 ∧
      item.getField "justification" = some (.str s) ∧
      s ≠ "" ∧ s.length ≤ 500 ∧ p.2 = trimStr s) := by
  intro items
  induction items with
  | nil =>
    intro acc jmap h
    rw [buildJustMap] at h
    injection h with h
    subst h
    exact ⟨by simp, fun p hp => Or.inl hp⟩
  | cons item rest ih =>
    intro acc jmap h
    rw [buildJustMap] at h
    split at h
    · rename_i idv jv hid hjv
      split at h
      · exact Except.noConfusion h
      · rename_i htruthy
        push_neg at htruthy
        have hidv : idv.truthy = true := by
          rcases Bool.eq_false_or_eq_true idv.truthy with hb | hb
          · exact hb
          · exact absurd hb htruthy.1
        split at h
        · rename_i s
          split at h
          · exact Except.noConfusion h
          · rename_i hlen
            push_neg at hlen
            obtain ⟨ih1, ih2⟩ := ih (jmapSet acc idv (trimStr s)) jmap h
            have hsne : s ≠ "" := by
              rcases Bool.eq_false_or_eq_true (JValue.truthy (.str s)) with hb2 | hb2
              · simpa [JValue.truthy] using hb2
              · exact absurd hb2 htruthy.2
            constructor
            · intro it hit
              rcases List.mem_cons.mp hit with h1 | h1
              · subst h1
                exact ⟨idv, s, hid, hidv, hjv, hsne, hlen⟩
              · exact ih1 it h1
            · intro p hp
              rcases ih2 p hp with h1 | h1
              · obtain ⟨pk, pv⟩ := p
                rcases mem_jmapSet h1 with h2 | h2
                · exact Or.inl h2
                · right
                  refine ⟨item, List.mem_cons_self _ _, s, ?_, hjv, hsne, hlen, h2.2⟩
                  rw [h2.1]
                  exact hid
              · obtain ⟨it, hit, rest'⟩ := h1
                exact Or.inr ⟨it, List.mem_cons_of_mem _ hit, rest'⟩
        · exact Except.noConfusion h
    · exact Except.noConfusion h

theorem applyJust_spec (jmap : List (JValue × String)) :
    ∀ (as upd : List Assignment),
    applyJust jmap as = .ok upd →
    (∀ a ∈ as, ∃ j, jmapGet jmap (.str a.applicantId) = some j) ∧
    upd.map (fun x => (x.applicantId, x.roleId, x.score))
      = as.map (fun x => (x.applicantId, x.roleId, x.score)) ∧
    ∀ x ∈ upd, x.justification.isSome = true := by
  intro as
  induction as with
  | nil =>
    intro upd h
    rw [applyJust] at h
    injection h with h
    subst h
    simp
  | cons a rest ih =>
    intro upd h
    rw [applyJust] at h
    split at h
    · exact Except.noConfusion h
    · rename_i j hj
      split at h
      · exact Except.noConfusion h
      · rename_i tail htail
        injection h with h
        subst h
        obtain ⟨ih1, ih2, ih3⟩ := ih tail htail
        refine ⟨?_, ?_, ?_⟩
        · intro x hx
          rcases List.mem_cons.mp hx with h1 | h1
          · subst h1
            exact ⟨j, hj⟩
          · exact ih1 x h1
        · simp [ih2]
        · intro x hx
          rcases List.mem_cons.mp hx with h1 | h1
          · subst h1
            rfl
          · exact ih3 x h1

theorem justifierRetryAux_ok (assignment : TeamAssignment)
    (oracle : Nat → Except String JValue) :
    ∀ remaining retryCount upd,
    justifierRetryAux assignment oracle remaining retryCount = .ok upd →
    ∃ k, retryCount ≤ k ∧ k ≤ retryCount + remaining ∧
      justifierAttempt assignment (oracle k) = .ok upd := by
  intro remaining
  induction remaining with
  | zero =>
    intro rc upd h
    rw [justifierRetryAux] at h
    split at h
    · rename_i u hu
      injection h with h
      subst h
      exact ⟨rc, Nat.le_refl rc, by omega, hu⟩
    · exact Except.noConfusion h
  | succ r ih =>
    intro rc upd h
    rw [justifierRetryAux] at h
    split at h
    · rename_i u hu
      injection h with h
      subst h
      exact ⟨rc, Nat.le_refl rc, by omega, hu⟩
    · rename_i e he
      split at h
      next r' hr' =>
        obtain rfl : r' = r := by omega
        split at h
        · obtain ⟨k, h1, h2, h3⟩ := ih (rc + 1) upd h
          exact ⟨k, by omega, by omega, h3⟩
        · exact Except.noConfusion h
      next hr0 => exact Except.noConfusion h

/-- C7: a successful `generateJustificationsWithRetry` call requires the
succeeding attempt to have received an array of exactly 10 objects, each
with a truthy `applicantId` and a non-empty `justification` string of at
most 500 characters; every applicantId of the assignment receives such a
string; and the returned assignment keeps every pairing (same applicant,
role and score) with its justification filled and
`justificationsGenerated = true`. A violating reply fails its attempt, so
no partially-updated assignment is ever returned. -/
theorem c7_justifier_validation (assignment : TeamAssignment)
    (oracle : Nat → Except String JValue) (upd : TeamAssignment)
    (h10 : assignment.assignments.length = 10)
    (hOk : generateJustificationsWithRetry assignment oracle 0 = .ok upd) :
    (∃ k, k ≤ MAX_RETRIES ∧ ∃ items : JArray,
      oracle k = .ok (.arr items) ∧ items.length = 10 ∧
      (∀ item ∈ items.toList, ∃ idv s, item.getField "applicantId" = some idv ∧
        idv.truthy = true ∧ item.getField "justification" = some (.str s) ∧
        s ≠ "" ∧ s.length ≤ 500) ∧
      (∀ a ∈ assignment.assignments, ∃ item ∈ items.toList, ∃ s : String,
        item.getField "applicantId" = some (.str a.applicantId) ∧
        item.getField "justification" = some (.str s) ∧
        s ≠ "" ∧ s.length ≤ 500)) ∧
    upd.teamId = assignment.teamId ∧
    upd.totalScore = assignment.totalScore ∧
    upd.justificationsGenerated = true ∧
    upd.assignments.map (fun x => (x.applicantId, x.roleId, x.score))
      = assignment.assignments.map (fun x => (x.applicantId, x.roleId, x.score)) ∧
    ∀ x ∈ upd.assignments, x.justification.isSome = true := by
  unfold generateJustificationsWithRetry at hOk
  obtain ⟨k, -, hk3, hatt⟩ :=
    justifierRetryAux_ok assignment oracle (MAX_RETRIES - 0) 0 upd hOk
  unfold justifierAttempt at hatt
  rw [if_neg (by omega)] at hatt
  split at hatt
  · exact Except.noConfusion hatt
  · rename_i content horacle
    cases content with
    | arr items =>
      rw [justifierValidateReply] at hatt
      split at hatt
      · exact Except.noConfusion hatt
      · rename_i hitems
        split at hatt
        · exact Except.noConfusion hatt
        · rename_i jmap hjmap
          split at hatt
          · exact Except.noConfusion hatt
          · rename_i updated hupd
            injection hatt with hatt
            subst hatt
            obtain ⟨hvalid, hmem⟩ := buildJustMap_spec items.toList [] jmap hjmap
            obtain ⟨hcover, hpair, hfilled⟩ :=
              applyJust_spec jmap assignment.assignments updated hupd
            refine ⟨⟨k, by omega, items, horacle, by omega, hvalid, ?_⟩,
              rfl, rfl, rfl, hpair, hfilled⟩
            intro a ha
            obtain ⟨j, hj⟩ := hcover a ha
            have hment := jmapGet_mem hj
            rcases hmem _ hment with h1 | h1
            · simp at h1
            · obtain ⟨it, hit, s, hs1, hs2, hs3, hs4, -⟩ := h1
              exact ⟨it, hit, s, hs1, hs2, hs3, hs4⟩
    | num n => simp [justifierValidateReply] at hatt
    | str s => simp [justifierValidateReply] at hatt
    | bool b => simp [justifierValidateReply] at hatt
    | null => simp [justifierValidateReply] at hatt
    | obj o => simp [justifierValidateReply] at hatt

/-- Witness for C7 at a concrete assignment and a concrete valid reply. -/
theorem c7_justifier_validation_witness :
    ∃ upd, generateJustificationsWithRetry sampleAssignment
        (fun _ => .ok sampleJustReply) 0 = .ok upd ∧
      upd.justificationsGenerated = true ∧
      ∀ x ∈ upd.assignments, x.justification.isSome = true := by
  have hOkB : (generateJustificationsWithRetry sampleAssignment
      (fun _ => .ok sampleJustReply) 0).isOk = true := by decide
  cases hEq : generateJustificationsWithRetry sampleAssignment
      (fun _ => .ok sampleJustReply) 0 with
  | error e =>
    rw [hEq] at hOkB
    simp [Except.isOk, Except.toBool] at hOkB
  | ok upd =>
    have h := c7_justifier_validation sampleAssignment (fun _ => .ok sampleJustReply)
      upd (by decide) hEq
    exact ⟨upd, rfl, h.2.2.2.1, h.2.2.2.2.2⟩

/-! ## Store lemmas -/
theorem updateSessionStats_teams (st : Store) (sid : String) (now : Nat) :
    (updateSessionStats st sid now).teams = st.teams := by
  unfold updateSessionStats
  split <;> rfl

theorem updateSessionStats_asessions (st : Store) (sid : String) (now : Nat) :
    (updateSessionStats st sid now).asessions = st.asessions := by
  unfold updateSessionStats
  split <;> rfl

theorem updateSessionStatus_found (st : Store) (sid : String)
    (s : AssignmentSession) (status2 : SessionStatus)
    (h : mfind st.asessions sid = some s) :
    updateSessionStatus st sid status2 =
      { st with asessions := mset st.asessions sid { s with status := status2 } } := by
  unfold updateSessionStatus
  rw [h]

theorem setSessionScoreMatrix_found (st : Store) (sid : String)
    (s : AssignmentSession) (sm : ScoreMatrix)
    (h : mfind st.asessions sid = some s) :
    setSessionScoreMatrix st sid sm =
      { st with asessions := mset st.asessions sid { s with scoreMatrix := some sm } } := by
  unfold setSessionScoreMatrix
  rw [h]

theorem setSessionAssignment_found (st : Store) (sid : String)
    (s : AssignmentSession) (a : TeamAssignment)
    (h : mfind st.asessions sid = some s) :
    setSessionAssignment st sid a =
      { st with asessions := mset st.asessions sid { s with assignment := some a } } := by
  unfold setSessionAssignment
  rw [h]

theorem mem_foldl_mdel {α : Type} :
    ∀ (keys : List String) (l : List (String × α)) (p : String × α),
      p ∈ keys.foldl (fun m k => mdel m k) l → p ∈ l ∧ p.1 ∉ keys
  | [], _, _, h => ⟨h, by simp⟩
  | k :: ks, l, p, h => by
    obtain ⟨h1, h2⟩ := mem_foldl_mdel ks (mdel l k) p h
    obtain ⟨h3, h4⟩ := mem_mdel h1
    exact ⟨h3, by simp [h4, h2]⟩

/-- If no stored assignment session belongs to `teamId`, the latest-session
lookup returns `none`. -/
theorem getLatest_eq_none (st2 : Store) (teamId : String)
    (h : ∀ p ∈ st2.asessions, (p.2 : AssignmentSession).teamId ≠ teamId) :
    getLatestSessionForTeam st2 teamId = none := by
  unfold getLatestSessionForTeam
  have hfil : (st2.asessions.map Prod.snd).filter
      (fun s => s.teamId = teamId) = [] := by
    rw [List.filter_eq_nil_iff]
    intro v hv
    obtain ⟨p, hp, hpv⟩ := List.mem_map.mp hv
    subst hpv
    simp [h p hp]
  rw [hfil]
  rfl

/-- C10: a successful `resetTeam` clears the roster (`applicants = []`,
`isComplete = false`) and deletes every assignment session whose `teamId`
is the reset team's id — including completed historical ones — so
`getLatestSessionForTeam` afterwards returns `none` (`null`). -/
theorem c10_resetTeam_deletes_sessions (st : Store) (teamId : String)
    (now : Nat) (st2 : Store) (hOk : resetTeam st teamId now = .ok st2) :
    (∃ team2, mfind st2.teams teamId = some team2 ∧
      team2.applicants = [] ∧ team2.isComplete = false) ∧
    (∀ p ∈ st2.asessions, (p.2 : AssignmentSession).teamId ≠ teamId) ∧
    getLatestSessionForTeam st2 teamId = none := by
  unfold resetTeam at hOk
  split at hOk
  · exact Except.noConfusion hOk
  · rename_i team hteam
    split at hOk
    · exact Except.noConfusion hOk
    · injection hOk with hOk
      have hasess : st2.asessions =
          ((st.asessions.filter (fun p => p.2.teamId = teamId)).map Prod.fst).foldl
            (fun m k => mdel m k) st.asessions := by
        rw [← hOk, updateSessionStats_asessions]
      have hteams : st2.teams = mset st.teams teamId
          { team with applicants := [], isComplete := false } := by
        rw [← hOk, updateSessionStats_teams]
      have hnone : ∀ p ∈ st2.asessions, (p.2 : AssignmentSession).teamId ≠ teamId := by
        intro p hp hcon
        rw [hasess] at hp
        obtain ⟨h1, h2⟩ := mem_foldl_mdel _ _ _ hp
        exact h2 (List.mem_map_of_mem Prod.fst
          (List.mem_filter.mpr ⟨h1, by simp [hcon]⟩))
      refine ⟨⟨{ team with applicants := [], isComplete := false },
        by rw [hteams]; exact mfind_mset_self _ _ _, rfl, rfl⟩, hnone,
        getLatest_eq_none st2 teamId hnone⟩

/-- Witness for C10: resetting team t1 in a concrete store with two t1
assignment sessions (one completed, one pending) and one t2 session. -/
theorem c10_resetTeam_deletes_sessions_witness :
    (∃ team2, mfind c10St2.teams "t1" = some team2 ∧
      team2.applicants = [] ∧ team2.isComplete = false) ∧
    (∀ p ∈ c10St2.asessions, (p.2 : AssignmentSession).teamId ≠ "t1") ∧
    getLatestSessionForTeam c10St2 "t1" = none :=
  c10_resetTeam_deletes_sessions c10Store "t1" 7 c10St2 rfl

/-- C9 counterexample: in the reachable store `c9St` the team's latest
assignment session is in the non-terminal status `scoring`, yet a second
`createAssignmentSession` for the same team succeeds and stores a second
session — the second trigger is neither rejected nor queued. -/
theorem c9_second_trigger_not_rejected :
    c9Scenario.isOk = true ∧
    (getLatestSessionForTeam c9St "t1").map AssignmentSession.status =
      some .scoring ∧
    (createAssignmentSession c9St "t1" .part1 none "as2" c9RoleIds 6).isOk = true ∧
    (createAssignmentSession c9St "t1" .part1 none "as2" c9RoleIds 6).toOption.map
      (fun p => p.1.asessions.map Prod.fst) = some ["as1", "as2"] := by
  decide

/-- C9 (amended): `createAssignmentSession` never consults the team's
existing assignment sessions. Whenever the team exists, its parent session
is active and the team is complete, a part-1 trigger succeeds — even if
some stored session of the same team is still in a non-terminal status. -/
theorem c9_no_inflight_guard (st : Store) (teamId : String) (team : Team)
    (hteam : mfind st.teams teamId = some team)
    (hactive : validateActiveSession st team.sessionId = .ok ())
    (hcomp : team.isComplete = true)
    (s : AssignmentSession) (sid : String)
    (hs : mfind st.asessions sid = some s)
    (hsteam : s.teamId = teamId) (hnonterm : s.status ≠ .complete)
    (uuid : String) (roleIds : List String) (now : Nat) :
    (createAssignmentSession st teamId .part1 none uuid roleIds now).isOk = true := by
  unfold createAssignmentSession
  simp [hteam, hactive, hcomp, buildRoles, Except.isOk, Except.toBool]

/-- Witness for the amended C9 theorem at the reachable store `c9St`, whose
session "as1" for team t1 is in status `scoring`. -/
theorem c9_no_inflight_guard_witness :
    c9Sess.status = .scoring ∧
    (createAssignmentSession c9St "t1" .part1 none "as2" c9RoleIds 6).isOk = true :=
  ⟨by decide,
   c9_no_inflight_guard c9St "t1" c9Team (by decide) (by decide) (by decide)
     c9Sess "as1" (by decide) (by decide) (by decide) "as2" c9RoleIds 6⟩

/-! ## C5/C6: the assignTeam pipeline -/
theorem createAssignmentSession_ok (st : Store) (teamId : String) (team : Team)
    (phase : Phase) (customRoles : Option (List String)) (uuid : String)
    (roleIds : List String) (now : Nat) (roles : List RoleDefinition)
    (hteam : mfind st.teams teamId = some team)
    (hactive : validateActiveSession st team.sessionId = .ok ())
    (hcomp : team.isComplete = true)
    (hroles : buildRoles phase customRoles roleIds = .ok roles) :
    createAssignmentSession st teamId phase customRoles uuid roleIds now =
      .ok ({ st with asessions := mset st.asessions uuid { id := uuid, teamId := teamId, phase := phase, roles := roles, status := .pending, createdAt := now } },
           { id := uuid, teamId := teamId, phase := phase, roles := roles, status := .pending, createdAt := now }) := by
  unfold createAssignmentSession
  simp [hteam, hactive, hcomp, hroles]

/-- C5: whenever the handler runs on an existing complete team in an active
parent session and either the scoring stage fails or the matching stage
(`assignRoles`) fails, the caller synchronously receives a 500 error
response, the created assignment session is back in status `pending`, and
no assignment was ever attached to it. -/
theorem c5_failure_reverts_to_pending (st : Store) (teamId : String) (team : Team)
    (phase : Phase) (customRoles : Option (List String)) (uuid : String)
    (roleIds : List String) (scoringOutcome : Except String ScoreMatrix)
    (munkresResult : List (Int × Int)) (nowCreate nowAssign : Nat)
    (roles : List RoleDefinition)
    (hteam : mfind st.teams teamId = some team)
    (hactive : validateActiveSession st team.sessionId = .ok ())
    (hcomp : team.isComplete = true)
    (hroles : buildRoles phase customRoles roleIds = .ok roles)
    (hfail : (∃ e, scoringOutcome = .error e) ∨
      (∃ sm e, scoringOutcome = .ok sm ∧
        assignRoles munkresResult team roles sm nowAssign = .error e)) :
    (assignTeamHandler st true teamId phase customRoles uuid roleIds
        scoringOutcome munkresResult nowCreate nowAssign).2.httpStatus = 500 ∧
    (assignTeamHandler st true teamId phase customRoles uuid roleIds
        scoringOutcome munkresResult nowCreate nowAssign).2.rsuccess = false ∧
    (assignTeamHandler st true teamId phase customRoles uuid roleIds
        scoringOutcome munkresResult nowCreate nowAssign).2.errorMsg.isSome = true ∧
    ∃ s2, mfind (assignTeamHandler st true teamId phase customRoles uuid roleIds
        scoringOutcome munkresResult nowCreate nowAssign).1.asessions uuid = some s2 ∧
      s2.status = .pending ∧ s2.assignment = none := by
  have hcs := createAssignmentSession_ok st teamId team phase customRoles uuid
    roleIds nowCreate roles hteam hactive hcomp hroles
  rcases hfail with ⟨e, rfl⟩ | ⟨sm, e, rfl, har⟩
  · unfold assignTeamHandler
    simp [hteam, hcomp, hcs, updateSessionStatus, setSessionScoreMatrix,
      mfind_mset_self]
  · unfold assignTeamHandler
    simp [hteam, hcomp, hcs, har, updateSessionStatus, setSessionScoreMatrix,
      mfind_mset_self]

/-- Witness for C5: on the reachable store `c9St`, a scoring failure (the
oracle returned a 9-row matrix) yields a 500 response and a pending
session with no assignment. -/
theorem c5_failure_reverts_to_pending_witness :
    (assignTeamHandler c9St true "t1" .part1 none "s5" c9RoleIds
        (.error "Expected 10 rows, got 9") [] 7 8).2.httpStatus = 500 ∧
    ∃ s2, mfind (assignTeamHandler c9St true "t1" .part1 none "s5" c9RoleIds
        (.error "Expected 10 rows, got 9") [] 7 8).1.asessions "s5" = some s2 ∧
      s2.status = .pending ∧ s2.assignment = none := by
  have h := c5_failure_reverts_to_pending c9St "t1" c9Team .part1 none "s5"
    c9RoleIds (.error "Expected 10 rows, got 9") [] 7 8 c9Roles (by decide)
    (by decide) (by decide) (by decide)
    (Or.inl ⟨"Expected 10 rows, got 9", rfl⟩)
  exact ⟨h.1, h.2.2.2⟩

/-- C6: when the background justification step finishes for a session still
present in the store, the session's status is `complete` regardless of the
justifier's outcome, and if the justifier failed the stored assignment is
untouched — in particular its `justificationsGenerated` flag is still
`false`. -/
theorem c6_background_completes (st : Store) (sessionId : String)
    (assignment : TeamAssignment) (oracle : Nat → Except String JValue)
    (s : AssignmentSession) (a : TeamAssignment)
    (hs : mfind st.asessions sessionId = some s)
    (ha : s.assignment = some a)
    (hg : a.justificationsGenerated = false) :
    ∃ s2, mfind (generateJustificationsBackground st sessionId assignment
        oracle).asessions sessionId = some s2 ∧
      s2.status = .complete ∧
      ∀ e, generateJustificationsWithRetry assignment oracle 0 = .error e →
        s2.assignment = some a ∧ a.justificationsGenerated = false := by
  unfold generateJustificationsBackground
  cases hout : generateJustificationsWithRetry assignment oracle 0 with
  | error e =>
    rw [updateSessionStatus_found st sessionId s .complete hs]
    refine ⟨{ s with status := .complete }, mfind_mset_self _ _ _, rfl, ?_⟩
    intro e2 he2
    exact ⟨ha, hg⟩
  | ok updated =>
    simp only [hs]
    rw [setSessionAssignment_found st sessionId s updated hs]
    rw [updateSessionStatus_found _ sessionId { s with assignment := some updated }
      .complete (mfind_mset_self _ _ _)]
    refine ⟨{ s with assignment := some updated, status := .complete },
      mfind_mset_self _ _ _, rfl, ?_⟩
    intro e2 he2
    exact Except.noConfusion he2

/-- Witness for C6: a failing justifier still drives the session to
`complete` and leaves its assignment (with `justificationsGenerated =
false`) in place. -/
theorem c6_background_completes_witness :
    ∃ s2, mfind (generateJustificationsBackground c6Store "as1" c6Asg
        (fun _ => .error "boom")).asessions "as1" = some s2 ∧
      s2.status = .complete ∧ s2.assignment = some c6Asg := by
  obtain ⟨s2, h1, h2, h3⟩ := c6_background_completes c6Store "as1" c6Asg
    (fun _ => .error "boom")
    ((mfind c6Store.asessions "as1").getD c9DummySession) c6Asg rfl rfl rfl
  exact ⟨s2, h1, h2,
    (h3 "Justification generation failed after 0 retries: Assignment must have exactly 10 assignments" (by decide)).1⟩

end TRA


